import Mathlib

/-!
Shallow embedding of the multi-tenant QuickBooks integration layer of the
`foundation` repository (`foundation/clients/quickbooks.py` and
`foundation/clients/multi_tenant_quickbooks.py`) together with proofs of the
specified properties.

Python strings are modelled as Lean `String`s.  The few string operations the
source uses (`in`, `split`, `strip`, `lower`, `replace`, comparison) are
defined here by structural recursion over the underlying character list, so
that every definition evaluates by kernel reduction on concrete input.
Machine floats enter the source only as decimal literals (money amounts and
JSON numbers); they are modelled exactly as an integer mantissa with a
decimal exponent, so that every definition still evaluates in the kernel.
-/

/-- The apostrophe character as a string (used in several source error
messages). -/
def apos : String := ⟨[Char.ofNat 39]⟩

/-- Python `needle in hay` for strings: substring containment. -/
def containsSub (needle : List Char) : List Char → Bool
  | [] => needle.isEmpty
  | c :: t => needle.isPrefixOf (c :: t) || containsSub needle t

/-- Python `str.lower` (ASCII case folding, which is all the source relies
on). -/
def pyLower (l : List Char) : List Char := l.map Char.toLower

/- ------------------------------------------------------------------------
`QuickBooksClient._make_request` and its authentication-retry behaviour
(`foundation/clients/quickbooks.py`, lines 50-148).
------------------------------------------------------------------------ -/

/-- An HTTP response as observed by `_make_request`: status code and body.
The parsed JSON body is modelled as the raw body string, which is all the
retry logic inspects. -/
structure HttpResponse where
  status : Nat
  body : String
deriving DecidableEq

/-- Outcome of one `AuthClient.refresh` attempt: success, or an exception
whose message is inspected by `_handle_auth_error`. -/
inductive RefreshOutcome where
  | ok
  | failed (msg : String)
deriving DecidableEq

/-- The two exception classes raised by the client: `QuickBooksAuthError`
and a plain `Exception`. -/
inductive QBError where
  | authError (msg : String)
  | exception (msg : String)
deriving DecidableEq

/-- `QuickBooksClient.PLAYGROUND_URL`. -/
def playgroundUrl : String := "https://developer.intuit.com/app/developer/playground"

/-- `QuickBooksClient._handle_auth_error` (lines 50-71): an `invalid_grant`
signal in the error message becomes the refresh-token-expired message with
remediation steps; anything else becomes a generic authentication failure.
Both carry the company prefix. -/
def handleAuthError (companyPrefix clientId clientSecret errorMsg : String) : QBError :=
  if containsSub "invalid_grant".data (pyLower errorMsg.data) then
    .authError ("\nQuickBooks refresh token has expired for " ++ companyPrefix ++ "!\n"
      ++ "Please follow these steps:\n"
      ++ "1. Go to " ++ playgroundUrl ++ "\n"
      ++ "2. Enter these credentials:\n"
      ++ "   Client ID: " ++ clientId ++ "\n"
      ++ "   Client Secret: " ++ clientSecret ++ "\n"
      ++ "3. Click " ++ apos ++ "Get authorization code" ++ apos ++ " and sign in with "
      ++ companyPrefix ++ " credentials\n"
      ++ "4. Click " ++ apos ++ "Get tokens" ++ apos ++ "\n"
      ++ "5. Update the " ++ companyPrefix ++ "_QB_REFRESH_TOKEN in your .env file\n"
      ++ "6. Update Heroku: heroku config:set " ++ companyPrefix ++ "_QB_REFRESH_TOKEN="
      ++ apos ++ "new_token" ++ apos ++ " --app propertyops\n")
  else
    .authError ("Failed to authenticate with QuickBooks for " ++ companyPrefix ++ ": " ++ errorMsg)

/-- `QuickBooksClient.refresh_access_token` (lines 73-81): a failing refresh
is routed through `_handle_auth_error`. -/
def refreshAccessToken (companyPrefix clientId clientSecret : String)
    (refresh : RefreshOutcome) : Except QBError Unit :=
  match refresh with
  | .ok => .ok ()
  | .failed msg => .error (handleAuthError companyPrefix clientId clientSecret msg)

/-- `QuickBooksClient._make_request` (lines 83-148).  `resp1` is the
transport answer to the first attempt; if a 401 triggers the single
refresh-and-retry, `resp2` answers the retried identical call.  Any other
non-success status raises through `raise_for_status`, whose
`RequestException` handler re-raises a plain `Exception` (the JSON fault
extraction is collapsed to the raw body, which no claim inspects).  The
second component counts token-refresh attempts. -/
def makeRequest (companyPrefix clientId clientSecret : String)
    (refresh : RefreshOutcome) (resp1 resp2 : HttpResponse) :
    Except QBError String × Nat :=
  if resp1.status = 401 then
    match refreshAccessToken companyPrefix clientId clientSecret refresh with
    | .error e => (.error e, 1)
    | .ok () =>
      if resp2.status = 401 then
        (.error (.authError "Authentication failed even after token refresh"), 1)
      else if 400 ≤ resp2.status then
        (.error (.exception ("QuickBooks API error: " ++ resp2.body)), 1)
      else (.ok resp2.body, 1)
  else if 400 ≤ resp1.status then
    (.error (.exception ("QuickBooks API error: " ++ resp1.body)), 0)
  else (.ok resp1.body, 0)

/-- C1, counterexample to the claim as stated: after two consecutive 401
responses the call does fail terminally with the auth error, but the raised
message is the fixed string "Authentication failed even after token
refresh", which does not mention the tenant id (here "DJANGO"); the claimed
annotation with the tenant id is absent. -/
theorem c1_counterexample :
    makeRequest "DJANGO" "cid" "csecret" .ok ⟨401, "unauthorized"⟩ ⟨401, "unauthorized"⟩
      = (.error (.authError "Authentication failed even after token refresh"), 1)
    ∧ containsSub "DJANGO".data
        "Authentication failed even after token refresh".data = false := by
  exact ⟨rfl, by decide⟩

/-- C1 (amended): if the first response is unauthorized (HTTP 401), the
session refreshes its token exactly once and retries the identical call; a
retry that succeeds completes the call with no error surfaced, and a second
consecutive unauthorized response fails terminally with the
`QuickBooksAuthError` "Authentication failed even after token refresh"
(whose message does not carry the tenant id). -/
theorem c1_refresh_retry_once (p cid cs : String) (r1 r2 : HttpResponse)
    (h1 : r1.status = 401) :
    (r2.status < 400 → makeRequest p cid cs .ok r1 r2 = (.ok r2.body, 1))
    ∧ (r2.status = 401 →
        makeRequest p cid cs .ok r1 r2
          = (.error (.authError "Authentication failed even after token refresh"), 1)) := by
  constructor
  · intro h2
    have hne : r2.status ≠ 401 := by omega
    have hlt : ¬ 400 ≤ r2.status := by omega
    simp [makeRequest, refreshAccessToken, h1, hne, hlt]
  · intro h2
    simp [makeRequest, refreshAccessToken, h1, h2]

/-- C1 witness: a concrete run with one 401 then a 200 completes with the
retry body and exactly one refresh. -/
theorem c1_refresh_retry_once_witness :
    makeRequest "CMR" "cid" "cs" .ok ⟨401, "expired"⟩ ⟨200, "okbody"⟩ = (.ok "okbody", 1) :=
  (c1_refresh_retry_once "CMR" "cid" "cs" ⟨401, "expired"⟩ ⟨200, "okbody"⟩ rfl).1 (by decide)

/- ------------------------------------------------------------------------
`QuickBooksClient._map_item_name` and `QuickBooksClient.get_item_id`
(`foundation/clients/quickbooks.py`, lines 421-483).  The query endpoint is
modelled by interpreting the three item queries the function issues against
an item table `db`, in table order (QuickBooks returns `Item` rows in the
order the backend holds them, which the function takes "first" from).
------------------------------------------------------------------------ -/

/-- One row of the `Item` entity as used by `get_item_id`: `Id`, `Name`,
`Type`. -/
structure ItemRec where
  id : String
  name : String
  type : String
deriving DecidableEq

/-- The fixed name-mapping table of `_map_item_name` (lines 423-437). -/
def itemMapping : List (String × String) :=
  [("Management Fees", "Management Fee"),
   ("4100 - Rent Income", "Sales"),
   ("4440 - Application Fee Income", "Application Fee"),
   ("General Labor: General Labor", "General Labor"),
   ("Placement Fees", "Commission"),
   ("Commissions/Placement Fees", "Commission"),
   ("4460 - Late Fee", "Late Fee"),
   ("Supplies", "Sales"),
   ("6175 - Garbage and Recycling", "Sales"),
   ("6040 - Pest Management", "Pest Control Contractors"),
   ("6101 - Legal Fees", "Legal Services"),
   ("6141 - Painting", "Painting supplies"),
   ("2120 - Clearing Account", "Sales")]

/-- Python `dict.get(key, default)` over an association list. -/
def lookupAssoc (key : String) : List (String × String) → Option String
  | [] => none
  | (k, v) :: rest => if k = key then some v else lookupAssoc key rest

/-- `QuickBooksClient._map_item_name` (lines 421-438): translate a domain
item name through the mapping table, unmapped names pass through. -/
def mapItemName (originalName : String) : String :=
  (lookupAssoc originalName itemMapping).getD originalName

/-- Membership in the billable item kinds `['Service', 'Inventory',
'NonInventory']`. -/
def isBillableType (t : String) : Bool :=
  decide (t = "Service" ∨ t = "Inventory" ∨ t = "NonInventory")

/-- `f"{item['Name']} ({item.get('Type', 'Unknown')})"` for the
available-items remediation list. -/
def describeItem (r : ItemRec) : String := r.name ++ " (" ++ r.type ++ ")"

/-- Python `', '.flatten(...)`. -/
def joinCommaSep : List String → String
  | [] => ""
  | [s] => s
  | s :: s2 :: rest => s ++ ", " ++ joinCommaSep (s2 :: rest)

/-- `QuickBooksClient.get_item_id` (lines 440-483): (a) translate the name
through the mapping; (b) exact-name lookup; (c) if the exact match is not a
billable kind, fuzzy `LIKE` search restricted to billable kinds, else the
category error; (d) if no exact match, list all billable items in the
not-found error, or return `None` when the backend yields no items at
all. -/
def getItemId (db : List ItemRec) (itemName : String) : Except String (Option String) :=
  let mapped := mapItemName itemName
  match db.filter (fun r => decide (r.name = mapped)) with
  | item :: _ =>
    if isBillableType item.type then
      .ok (some item.id)
    else
      match db.filter (fun r => isBillableType r.type && containsSub mapped.data r.name.data) with
      | found :: _ => .ok (some found.id)
      | [] =>
        .error ("Item " ++ apos ++ mapped ++ apos
          ++ " is set up as a category in QuickBooks. "
          ++ "Please create it as a Service, Inventory, or NonInventory item.")
  | [] =>
    match db.filter (fun r => isBillableType r.type) with
    | [] => .ok none
    | avail@(_ :: _) =>
      .error ("Item " ++ apos ++ mapped ++ apos ++ " not found in QuickBooks. "
        ++ "Available items are: " ++ joinCommaSep (avail.map describeItem))

/-- The name mapping is idempotent: no value of the mapping table is itself
a key, so a second application changes nothing. -/
theorem mapItemName_idempotent (s : String) :
    mapItemName (mapItemName s) = mapItemName s := by
  have hcases : lookupAssoc s itemMapping = none
      ∨ ∃ p ∈ itemMapping, lookupAssoc s itemMapping = some p.2 := by
    simp only [itemMapping, lookupAssoc]
    by_cases h1 : "Management Fees" = s <;> simp [h1] <;>
      by_cases h2 : "4100 - Rent Income" = s <;> simp [h2] <;>
      by_cases h3 : "4440 - Application Fee Income" = s <;> simp [h3] <;>
      by_cases h4 : "General Labor: General Labor" = s <;> simp [h4] <;>
      by_cases h5 : "Placement Fees" = s <;> simp [h5] <;>
      by_cases h6 : "Commissions/Placement Fees" = s <;> simp [h6] <;>
      by_cases h7 : "4460 - Late Fee" = s <;> simp [h7] <;>
      by_cases h8 : "Supplies" = s <;> simp [h8] <;>
      by_cases h9 : "6175 - Garbage and Recycling" = s <;> simp [h9] <;>
      by_cases h10 : "6040 - Pest Management" = s <;> simp [h10] <;>
      by_cases h11 : "6101 - Legal Fees" = s <;> simp [h11] <;>
      by_cases h12 : "6141 - Painting" = s <;> simp [h12] <;>
      by_cases h13 : "2120 - Clearing Account" = s <;> simp [h13]
  rcases hcases with h | ⟨p, hp, h⟩
  · simp [mapItemName, h]
  · have hv : mapItemName s = p.2 := by simp [mapItemName, h]
    rw [hv]
    fin_cases hp <;> decide

/-- C3: for every item name that is a key of the fixed name-mapping table
(indeed for every name at all, since the mapping is idempotent), resolving
the domain name returns the same item id as resolving the already-mapped
accounting-system name, against every item table. -/
theorem c3_get_item_id_map_invariant (db : List ItemRec) (name : String)
    (h : name ∈ itemMapping.map Prod.fst) :
    getItemId db (mapItemName name) = getItemId db name := by
  have hid : mapItemName (mapItemName name) = mapItemName name :=
    mapItemName_idempotent name
  simp only [getItemId, hid]

/-- C3 witness: resolving "Supplies" and its mapped name "Sales" against a
concrete item table gives the same id. -/
theorem c3_get_item_id_map_invariant_witness :
    getItemId [⟨"17", "Sales", "Service"⟩, ⟨"9", "Supplies", "Category"⟩]
        (mapItemName "Supplies")
      = getItemId [⟨"17", "Sales", "Service"⟩, ⟨"9", "Supplies", "Category"⟩] "Supplies" :=
  c3_get_item_id_map_invariant _ "Supplies" (by decide)

/- ------------------------------------------------------------------------
`QuickBooksClient.__init__` credential resolution
(`foundation/clients/quickbooks.py`, lines 24-37).
------------------------------------------------------------------------ -/

/-- The four credential values a session resolves at construction. -/
structure QBCredentials where
  clientId : Option String
  clientSecret : Option String
  refreshToken : Option String
  realmId : Option String
deriving DecidableEq

/-- Python truthiness of an `os.getenv` result: `None` and the empty string
are falsy. -/
def envTruthy : Option String → Bool
  | none => false
  | some s => decide (s ≠ "")

/-- `QuickBooksClient.__init__` (lines 24-37): the client id and secret are
read from the global `QUICKBOOKS_CLIENT_ID` / `QUICKBOOKS_CLIENT_SECRET`
variables, the refresh token and realm id from the tenant-prefixed
variables; when any of the four is missing or empty the constructor raises
`ValueError` whose message names only the tenant.  (The subsequent
`AuthClient` construction and initial token refresh are network effects
outside this claim.) -/
def qbClientInit (env : String → Option String) (companyPrefix : String) :
    Except String QBCredentials :=
  let creds : QBCredentials :=
    { clientId := env "QUICKBOOKS_CLIENT_ID"
      clientSecret := env "QUICKBOOKS_CLIENT_SECRET"
      refreshToken := env (companyPrefix ++ "_QB_REFRESH_TOKEN")
      realmId := env (companyPrefix ++ "_QB_REALM_ID") }
  if envTruthy creds.clientId && envTruthy creds.clientSecret
      && envTruthy creds.refreshToken && envTruthy creds.realmId then
    .ok creds
  else
    .error ("Missing required QuickBooks credentials for " ++ companyPrefix)

/-- A concrete environment for the C7 counterexample: both global client
variables and the tenant refresh token are set, a tenant-specific client id
is even present, but the realm id is absent. -/
def envC7 : String → Option String := fun k =>
  if k = "QUICKBOOKS_CLIENT_ID" then some "global-cid"
  else if k = "QUICKBOOKS_CLIENT_SECRET" then some "global-secret"
  else if k = "DJANGO_QB_REFRESH_TOKEN" then some "rtok"
  else if k = "DJANGO_QB_CLIENT_ID" then some "tenant-cid"
  else none

/-- A concrete environment where all four variables are set and a
tenant-prefixed client id is also present. -/
def envC7b : String → Option String := fun k =>
  if k = "QUICKBOOKS_CLIENT_ID" then some "global-cid"
  else if k = "QUICKBOOKS_CLIENT_SECRET" then some "global-secret"
  else if k = "DJANGO_QB_REFRESH_TOKEN" then some "rtok"
  else if k = "DJANGO_QB_REALM_ID" then some "realm1"
  else if k = "DJANGO_QB_CLIENT_ID" then some "tenant-cid"
  else none

/-- C7, counterexample to the claim as stated: with the realm id absent,
construction fails, but the `ValueError` message does not name the absent
variable (it only names the tenant); and with everything set, the client id
is resolved from the global variable, not from the tenant-prefixed one that
is also present — so neither "all four are tenant-specific" nor "the error
names the absent variables" holds of the code. -/
theorem c7_counterexample :
    qbClientInit envC7 "DJANGO"
      = .error "Missing required QuickBooks credentials for DJANGO"
    ∧ containsSub "REALM".data
        "Missing required QuickBooks credentials for DJANGO".data = false
    ∧ qbClientInit envC7b "DJANGO"
      = .ok ⟨some "global-cid", some "global-secret", some "rtok", some "realm1"⟩
    ∧ envC7b "DJANGO_QB_CLIENT_ID" = some "tenant-cid" := by
  exact ⟨rfl, by decide, rfl, by decide⟩

/-- C7 (amended): on construction the refresh token and realm id are
resolved from tenant-specific configuration while the client id and secret
come from the global variables, and construction fails whenever any of the
four is missing or empty, with a `ValueError` naming the tenant (not the
absent variables). -/
theorem c7_credential_resolution (env : String → Option String) (p : String) :
    ((envTruthy (env "QUICKBOOKS_CLIENT_ID") = false
        ∨ envTruthy (env "QUICKBOOKS_CLIENT_SECRET") = false
        ∨ envTruthy (env (p ++ "_QB_REFRESH_TOKEN")) = false
        ∨ envTruthy (env (p ++ "_QB_REALM_ID")) = false) →
      qbClientInit env p = .error ("Missing required QuickBooks credentials for " ++ p))
    ∧ (envTruthy (env "QUICKBOOKS_CLIENT_ID") = true →
       envTruthy (env "QUICKBOOKS_CLIENT_SECRET") = true →
       envTruthy (env (p ++ "_QB_REFRESH_TOKEN")) = true →
       envTruthy (env (p ++ "_QB_REALM_ID")) = true →
       qbClientInit env p = .ok
         { clientId := env "QUICKBOOKS_CLIENT_ID"
           clientSecret := env "QUICKBOOKS_CLIENT_SECRET"
           refreshToken := env (p ++ "_QB_REFRESH_TOKEN")
           realmId := env (p ++ "_QB_REALM_ID") }) := by
  constructor
  · intro h
    rcases h with h | h | h | h <;> simp [qbClientInit, h]
  · intro h1 h2 h3 h4
    simp [qbClientInit, h1, h2, h3, h4]

/-- C7 witness: with every variable present, construction succeeds and
returns exactly the four environment lookups. -/
theorem c7_credential_resolution_witness :
    qbClientInit envC7b "DJANGO"
      = .ok
        { clientId := envC7b "QUICKBOOKS_CLIENT_ID"
          clientSecret := envC7b "QUICKBOOKS_CLIENT_SECRET"
          refreshToken := envC7b ("DJANGO" ++ "_QB_REFRESH_TOKEN")
          realmId := envC7b ("DJANGO" ++ "_QB_REALM_ID") } :=
  (c7_credential_resolution envC7b "DJANGO").2 (by decide) (by decide) (by decide) (by decide)

/- ------------------------------------------------------------------------
Decimal parsing and currency rendering.  The source converts money strings
with Python `float(...)` and renders them with `f"${amount:,.2f}"`; amounts
are modelled exactly as `Dec` values (integer mantissa over a power of
ten), which is faithful for the fixed-point decimal literals that occur as
money values and JSON numbers (scientific notation and the binary-float
rounding of values finer than one cent are outside every theorem below).
------------------------------------------------------------------------ -/

/-- An exact decimal number: `mantissa / 10 ^ exp`. -/
structure Dec where
  mantissa : Int
  exp : Nat
deriving DecidableEq

/-- All characters are ASCII digits. -/
def charsAllDigits (l : List Char) : Bool := l.all Char.isDigit

/-- Numeric value of an ASCII digit. -/
def digitVal (c : Char) : Nat := c.toNat - 48

/-- The natural number denoted by a digit string. -/
def charsToNat (l : List Char) : Nat := l.foldl (fun n c => 10 * n + digitVal c) 0

/-- Split a character list on a separator character (every part kept, so
the result is never empty). -/
def splitChar (sep : Char) : List Char → List (List Char)
  | [] => [[]]
  | c :: rest =>
    if c = sep then [] :: splitChar sep rest
    else
      match splitChar sep rest with
      | [] => [[c]]
      | g :: gs => (c :: g) :: gs

/-- Unsigned decimal literal: digits with at most one decimal point and at
least one digit overall. -/
def parseDecimalCore (l : List Char) : Option Dec :=
  match splitChar '.' l with
  | [ip] =>
    if !ip.isEmpty && charsAllDigits ip then some ⟨Int.ofNat (charsToNat ip), 0⟩ else none
  | [ip, fp] =>
    if (!ip.isEmpty || !fp.isEmpty) && charsAllDigits ip && charsAllDigits fp then
      some ⟨Int.ofNat (charsToNat ip * 10 ^ fp.length + charsToNat fp), fp.length⟩
    else none
  | _ => none

/-- Negation of an exact decimal. -/
def decNeg (d : Dec) : Dec := ⟨-d.mantissa, d.exp⟩

/-- Python `float(s)` on the decimal literals that occur as money values:
optional sign, digits, optional fractional part.  Returns `none` where
`float` raises `ValueError`. -/
def parseDecimal (l : List Char) : Option Dec :=
  match l with
  | [] => none
  | c :: rest =>
    if c = '-' then (parseDecimalCore rest).map decNeg
    else if c = '+' then parseDecimalCore rest
    else parseDecimalCore l

/-- The ASCII digit character for a value below ten. -/
def digitChar : Nat → Char
  | 0 => '0'
  | 1 => '1'
  | 2 => '2'
  | 3 => '3'
  | 4 => '4'
  | 5 => '5'
  | 6 => '6'
  | 7 => '7'
  | 8 => '8'
  | _ => '9'

/-- Little-endian decimal digits of `n`, driven by explicit fuel so that the
definition is structural. -/
def natDigitsLE : Nat → Nat → List Nat
  | 0, _ => []
  | fuel + 1, n => if n = 0 then [] else (n % 10) :: natDigitsLE fuel (n / 10)

/-- Big-endian digit characters of `n` (at least one digit). -/
def natToDigitChars (n : Nat) : List Char :=
  if n = 0 then ['0'] else ((natDigitsLE n n).map digitChar).reverse

/-- Chunks of three from the left, the final chunk holding the remainder. -/
def chunk3 : List Char → List (List Char)
  | [] => []
  | [a] => [[a]]
  | [a, b] => [[a, b]]
  | a :: b :: c :: rest => [a, b, c] :: chunk3 rest

/-- Chunks of three counted from the right, as thousands grouping does. -/
def groupRight (l : List Char) : List (List Char) :=
  ((chunk3 l.reverse).map List.reverse).reverse

/-- Join character groups with a separator. -/
def intercalateChar (sep : Char) : List (List Char) → List Char
  | [] => []
  | [g] => g
  | g :: g2 :: gs => g ++ sep :: intercalateChar sep (g2 :: gs)

/-- Python `f"{n:,}"` on a natural number: decimal digits in groups of three
separated by commas. -/
def commaGrouped (n : Nat) : List Char := intercalateChar ',' (groupRight (natToDigitChars n))

/-- Exactly two decimal places for a cent remainder below one hundred. -/
def pad2 (r : Nat) : List Char := [digitChar ((r / 10) % 10), digitChar (r % 10)]

/-- Python `f"{x:,.2f}"` for an amount of `c` cents. -/
def formatCentsCommas (c : Int) : List Char :=
  (if c < 0 then ['-'] else []) ++ commaGrouped (c.natAbs / 100) ++ '.' :: pad2 (c.natAbs % 100)

/-- The amount in cents, rounded to two decimal places.  Exact whenever the
value has at most two decimals (the only amounts the theorems below feed
it); finer values round half-up rather than to the nearest even binary
float. -/
def decCents (d : Dec) : Int :=
  if d.exp ≤ 2 then d.mantissa * Int.ofNat (10 ^ (2 - d.exp))
  else (2 * d.mantissa + Int.ofNat (10 ^ (d.exp - 2)))
    / (2 * Int.ofNat (10 ^ (d.exp - 2)))

/-- `f"${amount:,.2f}"`: dollar sign, thousands grouping, two decimals. -/
def formatMoneyAmount (d : Dec) : String := ⟨'$' :: formatCentsCommas (decCents d)⟩

/- ------------------------------------------------------------------------
`MultiTenantQB.format_ar_report` (`multi_tenant_quickbooks.py`, lines
72-119).
------------------------------------------------------------------------ -/

/-- One report column: `{'value': ...}`, the key possibly absent. -/
structure ReportCol where
  value : Option String
deriving DecidableEq

/-- One row of the raw aging-report payload.  `summaryColData` collapses
`row.get('Summary', {}).get('ColData', [])`. -/
structure ReportRow where
  type : Option String
  group : Option String
  colData : Option (List ReportCol)
  summaryColData : Option (List ReportCol)
deriving DecidableEq

/-- `report['Rows']`, whose `Row` key may be absent (defaulting to `[]`). -/
structure ReportRowsObj where
  row : Option (List ReportRow)
deriving DecidableEq

/-- A raw report payload; `rows = none` models a payload without a `'Rows'`
key. -/
structure ReportPayload where
  rows : Option ReportRowsObj
deriving DecidableEq

/-- `value.replace('$', '').replace(',', '')`: for these one-character
patterns sequential replacement by the empty string is character
filtering. -/
def cleanMoney (l : List Char) : List Char := l.filter (fun c => !(c = '$' || c = ','))

/-- Lines 93-101 of `format_ar_report`: one non-first data cell.  The empty
string is first normalised to `'0.00'`; the cleaned value is parsed and
re-rendered as currency; an unparsable value is passed through unchanged
(the `ValueError` branch). -/
def renderMoneyCell (value : String) : String :=
  let value := if value = "" then "0.00" else value
  match parseDecimal (cleanMoney value.data) with
  | some amount => formatMoneyAmount amount
  | none => value

/-- Lines 109-115: one grand-total summary cell; `value` defaults to
`'0.00'` when the key is absent, and there is no empty-string normalisation
on this path. -/
def renderTotalCell (col : ReportCol) : String :=
  let value := col.value.getD "0.00"
  match parseDecimal (cleanMoney value.data) with
  | some amount => formatMoneyAmount amount
  | none => value

/-- Lines 88-102: one data row — the first column (the customer name)
passes through unmodified, the rest are money cells. -/
def renderDataRow (cols : List ReportCol) : List String :=
  match cols with
  | [] => []
  | c0 :: rest => c0.value.getD "" :: rest.map (fun c => renderMoneyCell (c.value.getD ""))

/-- The first loop of `format_ar_report` (lines 83-102): rows whose
`ColData` is missing or empty and rows typed `Section` are skipped; every
other row is rendered in order. -/
def formatDataRows : List ReportRow → List (List String)
  | [] => []
  | r :: rest =>
    match r.colData with
    | none => formatDataRows rest
    | some cols =>
      if cols.isEmpty || r.type = some "Section" then formatDataRows rest
      else renderDataRow cols :: formatDataRows rest

/-- The second loop (lines 105-117): the first row whose type is `Section`
and whose group is `GrandTotal`. -/
def findGrandTotal : List ReportRow → Option ReportRow
  | [] => none
  | r :: rest =>
    if r.type = some "Section" ∧ r.group = some "GrandTotal" then some r
    else findGrandTotal rest

/-- The rendered grand-total row: the literal `'TOTAL'` followed by the
summary columns after the first. -/
def renderTotalRow (r : ReportRow) : List String :=
  "TOTAL" :: ((r.summaryColData.getD []).drop 1).map renderTotalCell

/-- The fixed header row (line 78). -/
def arReportHeaders : List String :=
  ["Customer", "Current", "1-30 Days", "31-60 Days", "61-90 Days", "91+ Days", "Total"]

/-- `MultiTenantQB.format_ar_report` (lines 72-119): empty or `Rows`-less
payloads give `[]`; otherwise the header row, the rendered data rows, and —
when a grand-total section exists — the `TOTAL` row last. -/
def formatArReport (report : Option ReportPayload) : List (List String) :=
  match report with
  | none => []
  | some payload =>
    match payload.rows with
    | none => []
    | some rowsObj =>
      let rows := rowsObj.row.getD []
      (arReportHeaders :: formatDataRows rows)
        ++ (match findGrandTotal rows with
            | some r => [renderTotalRow r]
            | none => [])

/- ------------------------------------------------------------------------
`MultiTenantQB.get_ar_aging` (`multi_tenant_quickbooks.py`, lines 43-70).
------------------------------------------------------------------------ -/

/-- The per-tenant outcome of the loop body: no client was initialised for
the tenant, `client.get_ar_aging()` raised `QuickBooksAuthError`, it raised
some other exception, or it returned a raw report payload. -/
inductive TenantOutcome where
  | noClient
  | authFailure (msg : String)
  | otherFailure (msg : String)
  | success (raw : Option ReportPayload)
deriving DecidableEq

/-- `MultiTenantQB.get_ar_aging` (lines 43-70): iterate the requested
companies; skip tenants without a client; auth errors go to `auth_errors`
keyed by tenant; other failures are only logged; successes are formatted
and stored in `reports`.  Both result dictionaries are modelled as
association lists in insertion order. -/
def poolGetArAging (outcome : String → TenantOutcome) :
    List String → List (String × List (List String)) × List (String × String)
  | [] => ([], [])
  | company :: rest =>
    let tail := poolGetArAging outcome rest
    match outcome company with
    | .noClient => tail
    | .authFailure msg => (tail.1, (company, msg) :: tail.2)
    | .otherFailure _ => tail
    | .success raw => ((company, formatArReport raw) :: tail.1, tail.2)

/-- When every company in the list succeeds, the pool returns one formatted
report per company in order and no auth errors. -/
theorem poolGetArAging_all_success (outcome : String → TenantOutcome)
    (raws : String → Option ReportPayload) :
    ∀ companies : List String,
      (∀ c ∈ companies, outcome c = .success (raws c)) →
      poolGetArAging outcome companies
        = (companies.map (fun c => (c, formatArReport (raws c))), []) := by
  intro companies
  induction companies with
  | nil => intro _; rfl
  | cons c rest ih =>
    intro h
    have hc : outcome c = .success (raws c) := h c (List.mem_cons_self c rest)
    have hrest := ih (fun x hx => h x (List.mem_cons_of_mem c hx))
    simp [poolGetArAging, hc, hrest]

/-- `QuickBooksClient.get_ar_aging` (`quickbooks.py`, lines 394-405): the
raw report from `_make_request`, with ANY exception — `QuickBooksAuthError`
included — swallowed into an `{"error": str(e)}` payload, a non-empty dict
without a `Rows` key. -/
def clientGetArAging (callResult : Except QBError (Option ReportPayload)) :
    Option ReportPayload :=
  match callResult with
  | .ok payload => payload
  | .error _ => some ⟨none⟩

/-- What the pool sees for one tenant: no initialised client, or the
underlying `_make_request` outcome of the tenant's report call. -/
inductive TenantCall where
  | noClient
  | call (result : Except QBError (Option ReportPayload))

/-- The loop-body outcome the composed system actually produces: since
`QuickBooksClient.get_ar_aging` never raises, every tenant with a client
reaches the `success` arm, and the pool's two `except` arms are
unreachable. -/
def composedTenantOutcome (call : String → TenantCall) : String → TenantOutcome :=
  fun c =>
    match call c with
    | .noClient => .noClient
    | .call res => .success (clientGetArAging res)

/-- Per-tenant report-call results for the C2 counterexample: CMR's call
fails terminally with the auth error, the other three tenants return an
empty payload. -/
def resultsC2 : String → Except QBError (Option ReportPayload) := fun c =>
  if c = "CMR" then .error (.authError "Authentication failed even after token refresh")
  else .ok (some ⟨some ⟨some []⟩⟩)

/-- Every tenant has a client in the C2 counterexample. -/
def callC2 : String → TenantCall := fun c => .call (resultsC2 c)

/-- C2, counterexample to the claim as stated: with CMR the one tenant
failing authentication, the composed aggregate records CMR in `reports`
(with an empty table) and leaves `auth_errors` empty — the client wrapper
swallows `QuickBooksAuthError` into an `{"error": ...}` payload, so the
pool's auth capture never fires and CMR is not recorded only in
`auth_errors`. -/
theorem c2_counterexample :
    poolGetArAging (composedTenantOutcome callC2)
        ["DJANGO", "STANDARD_MANAGEMENT_COMPANY", "STANDARD_PROPERTIES", "CMR"]
      = ([("DJANGO", [arReportHeaders]),
          ("STANDARD_MANAGEMENT_COMPANY", [arReportHeaders]),
          ("STANDARD_PROPERTIES", [arReportHeaders]),
          ("CMR", [])], []) := rfl

/-- C2 (amended): over tenants that all have clients, where tenant `k`'s
report call fails authentication and the others return payloads, the
composed aggregate still carries every tenant's formatted report in order —
`k`'s failure aborts and alters nothing else — but `k` is recorded in
`reports` with the empty table formatted from the swallowed error payload,
while `auth_errors` stays empty. -/
theorem c2_aggregate_isolation_composed (call : String → TenantCall)
    (results : String → Except QBError (Option ReportPayload))
    (companies : List String) (k : String) (e : QBError)
    (hcall : ∀ c ∈ companies, call c = .call (results c))
    (hk : results k = .error e) :
    poolGetArAging (composedTenantOutcome call) companies
      = (companies.map (fun c => (c, formatArReport (clientGetArAging (results c)))), [])
    ∧ formatArReport (clientGetArAging (results k)) = [] := by
  constructor
  · refine poolGetArAging_all_success (composedTenantOutcome call)
      (fun c => clientGetArAging (results c)) companies ?_
    intro c hc
    simp [composedTenantOutcome, hcall c hc]
  · rw [hk]
    rfl

/-- C2 witness: the counterexample assignment instantiates the amended
statement. -/
theorem c2_aggregate_isolation_composed_witness :
    poolGetArAging (composedTenantOutcome callC2)
        ["DJANGO", "STANDARD_MANAGEMENT_COMPANY", "STANDARD_PROPERTIES", "CMR"]
      = (["DJANGO", "STANDARD_MANAGEMENT_COMPANY", "STANDARD_PROPERTIES", "CMR"].map
          (fun c => (c, formatArReport (clientGetArAging (resultsC2 c)))), [])
    ∧ formatArReport (clientGetArAging (resultsC2 "CMR")) = [] :=
  c2_aggregate_isolation_composed callC2 resultsC2
    ["DJANGO", "STANDARD_MANAGEMENT_COMPANY", "STANDARD_PROPERTIES", "CMR"]
    "CMR" (.authError "Authentication failed even after token refresh")
    (fun c hc => rfl) rfl

/- ------------------------------------------------------------------------
Python string comparison and Python stable sorting, used by
`QuickBooksClient.create_invoice` (lines 506-520).
------------------------------------------------------------------------ -/

/-- Python `<` on strings: lexicographic comparison of code points. -/
def charListLt : List Char → List Char → Bool
  | [], [] => false
  | [], _ :: _ => true
  | _ :: _, [] => false
  | a :: as, b :: bs =>
    if a < b then true else if b < a then false else charListLt as bs

theorem charListLt_asymm (a : List Char) :
    ∀ b, charListLt a b = true → charListLt b a = false := by
  induction a with
  | nil =>
    intro b h
    cases b with
    | nil => simpa [charListLt] using h
    | cons c cs => simp [charListLt]
  | cons x xs ih =>
    intro b h
    cases b with
    | nil => simp [charListLt] at h
    | cons y ys =>
      by_cases hxy : x < y
      · have hyx : ¬ y < x := lt_asymm hxy
        simp [charListLt, hxy, hyx]
      · by_cases hyx : y < x
        · simp [charListLt, hxy, hyx] at h
        · simp only [charListLt, if_neg hxy, if_neg hyx] at h
          simp only [charListLt, if_neg hyx, if_neg hxy]
          exact ih ys h

theorem charListLt_antisymm (a : List Char) :
    ∀ b, charListLt a b = false → charListLt b a = false → a = b := by
  induction a with
  | nil =>
    intro b h1 _
    cases b with
    | nil => rfl
    | cons c cs => simp [charListLt] at h1
  | cons x xs ih =>
    intro b h1 h2
    cases b with
    | nil => simp [charListLt] at h2
    | cons y ys =>
      by_cases hxy : x < y
      · simp [charListLt, hxy] at h1
      · by_cases hyx : y < x
        · simp [charListLt, hyx] at h2
        · have hx : x = y := le_antisymm (not_lt.mp hyx) (not_lt.mp hxy)
          simp only [charListLt, if_neg hxy, if_neg hyx] at h1
          simp only [charListLt, if_neg hyx, if_neg hxy] at h2
          rw [hx, ih ys h1 h2]

theorem charListLt_trans (a : List Char) :
    ∀ b c, charListLt a b = true → charListLt b c = true → charListLt a c = true := by
  induction a with
  | nil =>
    intro b c hab hbc
    cases b with
    | nil => simp [charListLt] at hab
    | cons y ys =>
      cases c with
      | nil => simp [charListLt] at hbc
      | cons z zs => simp [charListLt]
  | cons x xs ih =>
    intro b c hab hbc
    cases b with
    | nil => simp [charListLt] at hab
    | cons y ys =>
      cases c with
      | nil => simp [charListLt] at hbc
      | cons z zs =>
        by_cases hxy : x < y
        · by_cases hyz : y < z
          · have hxz : x < z := lt_trans hxy hyz
            simp [charListLt, hxz]
          · by_cases hzy : z < y
            · simp [charListLt, hyz, hzy] at hbc
            · have hyz' : y = z := le_antisymm (not_lt.mp hzy) (not_lt.mp hyz)
              have hxz : x < z := hyz' ▸ hxy
              simp [charListLt, hxz]
        · by_cases hyx : y < x
          · simp [charListLt, hxy, hyx] at hab
          · have hxy' : x = y := le_antisymm (not_lt.mp hyx) (not_lt.mp hxy)
            simp only [charListLt, if_neg hxy, if_neg hyx] at hab
            by_cases hyz : y < z
            · have hxz : x < z := hxy' ▸ hyz
              simp [charListLt, hxz]
            · by_cases hzy : z < y
              · simp [charListLt, hyz, hzy] at hbc
              · have hyz' : y = z := le_antisymm (not_lt.mp hzy) (not_lt.mp hyz)
                have hxz : ¬ x < z := by rw [hxy', hyz']; exact lt_irrefl z
                have hzx : ¬ z < x := by rw [hxy', hyz']; exact lt_irrefl z
                simp only [charListLt, if_neg hyz, if_neg hzy] at hbc
                simp only [charListLt, if_neg hxz, if_neg hzx]
                exact ih ys zs hab hbc

/-- Python comparison of a pair of strings (a two-element tuple key). -/
def lexPairLt (p q : List Char × List Char) : Bool :=
  if charListLt p.1 q.1 then true
  else if charListLt q.1 p.1 then false
  else charListLt p.2 q.2

theorem lexPairLt_asymm (p q : List Char × List Char)
    (h : lexPairLt p q = true) : lexPairLt q p = false := by
  by_cases h1 : charListLt p.1 q.1 = true
  · simp [lexPairLt, charListLt_asymm _ _ h1, h1]
  · by_cases h2 : charListLt q.1 p.1 = true
    · simp [lexPairLt, h1, h2] at h
    · simp only [lexPairLt, if_neg h1, if_neg h2] at h ⊢
      simp [charListLt_asymm _ _ h]

theorem lexPairLt_trans (p q r : List Char × List Char)
    (hpq : lexPairLt p q = true) (hqr : lexPairLt q r = true) :
    lexPairLt p r = true := by
  simp only [lexPairLt] at hpq hqr ⊢
  by_cases h1 : charListLt p.1 q.1 = true
  · by_cases h2 : charListLt q.1 r.1 = true
    · simp [charListLt_trans _ _ _ h1 h2]
    · by_cases h3 : charListLt r.1 q.1 = true
      · simp [h2, h3] at hqr
      · have heq : q.1 = r.1 :=
          charListLt_antisymm _ _ (by simpa using h2) (by simpa using h3)
        simp [← heq, h1]
  · by_cases h2 : charListLt q.1 p.1 = true
    · simp [h1, h2] at hpq
    · have heq : p.1 = q.1 :=
        charListLt_antisymm _ _ (by simpa using h1) (by simpa using h2)
      simp only [if_neg h1, if_neg h2] at hpq
      by_cases h3 : charListLt q.1 r.1 = true
      · simp [heq, h3]
      · by_cases h4 : charListLt r.1 q.1 = true
        · simp [h3, h4] at hqr
        · have heq2 : q.1 = r.1 :=
            charListLt_antisymm _ _ (by simpa using h3) (by simpa using h4)
          simp only [if_neg h3, if_neg h4] at hqr
          have hpr : charListLt p.2 r.2 = true := charListLt_trans _ _ _ hpq hqr
          have hf1 : charListLt p.1 r.1 = false := by
            rw [heq]
            simpa using h3
          have hf2 : charListLt r.1 p.1 = false := by
            rw [heq]
            simpa using h4
          simp [hf1, hf2, hpr]

/-- Stable insertion with respect to a strict comparison: the new element
goes after every existing element it is not strictly below, which is how
Python `list.sort` places ties (stability). -/
def pyKeyInsert (lt : α → α → Bool) (a : α) : List α → List α
  | [] => [a]
  | b :: l => if lt a b then a :: b :: l else b :: pyKeyInsert lt a l

/-- Python `list.sort(key=...)` as a stable sort: elements are inserted
left to right, each after all elements it is not strictly below. -/
def pySortByKey (lt : α → α → Bool) (l : List α) : List α :=
  l.foldl (fun acc a => pyKeyInsert lt a acc) []

theorem pyKeyInsert_perm (lt : α → α → Bool) (a : α) (l : List α) :
    (pyKeyInsert lt a l).Perm (a :: l) := by
  induction l with
  | nil => simp [pyKeyInsert]
  | cons b t ih =>
    by_cases h : lt a b = true
    · simp [pyKeyInsert, h]
    · simp only [pyKeyInsert, if_neg h]
      exact (ih.cons b).trans (List.Perm.swap a b t)

theorem pySortByKey_foldl_perm (lt : α → α → Bool) :
    ∀ (l acc : List α), (l.foldl (fun acc a => pyKeyInsert lt a acc) acc).Perm (acc ++ l) := by
  intro l
  induction l with
  | nil => intro acc; simp
  | cons a t ih =>
    intro acc
    have h1 := ih (pyKeyInsert lt a acc)
    have h2 : (pyKeyInsert lt a acc ++ t).Perm ((a :: acc) ++ t) :=
      (pyKeyInsert_perm lt a acc).append_right t
    have h3 : ((a :: acc) ++ t).Perm (acc ++ a :: t) := by
      simpa using (List.perm_middle).symm
    exact (h1.trans h2).trans h3

/-- Sorting is a permutation of the input. -/
theorem pySortByKey_perm (lt : α → α → Bool) (l : List α) :
    (pySortByKey lt l).Perm l := by
  simpa using pySortByKey_foldl_perm lt l []

theorem mem_pyKeyInsert (lt : α → α → Bool) (a x : α) (l : List α)
    (h : x ∈ pyKeyInsert lt a l) : x = a ∨ x ∈ l := by
  induction l with
  | nil => simpa [pyKeyInsert] using h
  | cons b t ih =>
    by_cases hb : lt a b = true
    · simp only [pyKeyInsert, if_pos hb] at h
      rcases List.mem_cons.mp h with h | h
      · exact .inl h
      · exact .inr h
    · simp only [pyKeyInsert, if_neg hb] at h
      rcases List.mem_cons.mp h with h | h
      · exact .inr (h ▸ List.mem_cons_self b t)
      · rcases ih h with h | h
        · exact .inl h
        · exact .inr (List.mem_cons_of_mem b h)

/-- Inserting preserves sortedness in the non-strict order `fun x y =>
lt y x = false`, given asymmetry and transitivity of `lt`. -/
theorem pyKeyInsert_pairwise (lt : α → α → Bool)
    (hasym : ∀ x y, lt x y = true → lt y x = false)
    (htrans : ∀ x y z, lt x y = true → lt y z = true → lt x z = true)
    (a : α) (l : List α) (h : l.Pairwise (fun x y => lt y x = false)) :
    (pyKeyInsert lt a l).Pairwise (fun x y => lt y x = false) := by
  induction l with
  | nil => simp [pyKeyInsert]
  | cons b t ih =>
    rcases List.pairwise_cons.mp h with ⟨hb, ht⟩
    by_cases hab : lt a b = true
    · simp only [pyKeyInsert, if_pos hab]
      refine List.pairwise_cons.mpr ⟨?_, h⟩
      intro x hx
      rcases List.mem_cons.mp hx with hx | hx
      · exact hx ▸ hasym _ _ hab
      · by_cases hxa : lt x a = true
        · exfalso
          have hxb : lt x b = true := htrans _ _ _ hxa hab
          rw [hb x hx] at hxb
          exact Bool.false_ne_true hxb
        · simpa using hxa
    · simp only [pyKeyInsert, if_neg hab]
      refine List.pairwise_cons.mpr ⟨?_, ih ht⟩
      intro x hx
      rcases mem_pyKeyInsert lt a x t hx with hx | hx
      · rw [hx]
        simpa using hab
      · exact hb x hx

/-- The folded insertion keeps the accumulator sorted. -/
theorem pySortByKey_foldl_pairwise (lt : α → α → Bool)
    (hasym : ∀ x y, lt x y = true → lt y x = false)
    (htrans : ∀ x y z, lt x y = true → lt y z = true → lt x z = true) :
    ∀ (l acc : List α), acc.Pairwise (fun x y => lt y x = false) →
      (l.foldl (fun acc a => pyKeyInsert lt a acc) acc).Pairwise
        (fun x y => lt y x = false) := by
  intro l
  induction l with
  | nil => intro acc h; simpa using h
  | cons a t ih =>
    intro acc h
    exact ih (pyKeyInsert lt a acc) (pyKeyInsert_pairwise lt hasym htrans a acc h)

/-- The sorted output is pairwise non-descending in the key order. -/
theorem pySortByKey_pairwise (lt : α → α → Bool)
    (hasym : ∀ x y, lt x y = true → lt y x = false)
    (htrans : ∀ x y z, lt x y = true → lt y z = true → lt x z = true)
    (l : List α) :
    (pySortByKey lt l).Pairwise (fun x y => lt y x = false) :=
  pySortByKey_foldl_pairwise lt hasym htrans l [] (by simp)

/- ------------------------------------------------------------------------
`QuickBooksClient.create_invoice` (`foundation/clients/quickbooks.py`,
lines 485-612): sorting and grouping of invoice line requests.
------------------------------------------------------------------------ -/

/-- One caller-supplied invoice line request (the dictionaries documented
in the `create_invoice` docstring, lines 490-501).  The numeric `Quantity`,
`Rate` and `Amount` values are modelled by their Python `str()` renderings,
since the source only ever stringifies them; `None` is `Option.none`. -/
structure InvoiceItem where
  customer : String
  invoiceDate : String
  dueDate : String
  item : String
  description : String
  quantity : Option String
  rate : Option String
  amount : String
  serviceDate : Option String
deriving DecidableEq

/-- The characters before the first occurrence of `sep` (the whole list
when `sep` is absent): `l.split(sep)[0]`, which is also what
`l.split(sep, 1)[0]` yields. -/
def beforeSub (sep : List Char) : List Char → List Char
  | [] => []
  | c :: rest => if sep.isPrefixOf (c :: rest) then [] else c :: beforeSub sep rest

/-- Python `str.strip` from the left. -/
def dropLeadingWhitespace : List Char → List Char
  | [] => []
  | c :: rest => if c.isWhitespace then dropLeadingWhitespace rest else c :: rest

/-- Python `str.strip`. -/
def pyStrip (l : List Char) : List Char :=
  (dropLeadingWhitespace ((dropLeadingWhitespace l).reverse)).reverse

/-- `get_property_address` (lines 507-511): the part of the description
before the phrase `'Management Fees'` when that phrase occurs, else before
the first hyphen, stripped of surrounding whitespace. -/
def getPropertyAddress (it : InvoiceItem) : List Char :=
  let desc := it.description.data
  if containsSub "Management Fees".data desc then
    pyStrip (beforeSub "Management Fees".data desc)
  else
    pyStrip (beforeSub "-".data desc)

/-- `x.get('ServiceDate') or x.get('InvoiceDate', '')` — Python `or` falls
through on `None` and the empty string. -/
def sortDate (it : InvoiceItem) : String :=
  match it.serviceDate with
  | some s => if s = "" then it.invoiceDate else s
  | none => it.invoiceDate

/-- The sort key of lines 515-520 as a pair of strings. -/
def itemSortKey (it : InvoiceItem) : List Char × List Char :=
  (getPropertyAddress it, (sortDate it).data)

/-- The comparison `create_invoice` sorts by: property address first, then
service-or-invoice date, as Python compares the tuple key. -/
def itemSortLt (x y : InvoiceItem) : Bool := lexPairLt (itemSortKey x) (itemSortKey y)

/-- `invoice_items.sort(key=...)` of lines 514-520 (on a copy of the
input). -/
def sortInvoiceItems (items : List InvoiceItem) : List InvoiceItem :=
  pySortByKey itemSortLt items

theorem itemSortLt_asymm (x y : InvoiceItem) (h : itemSortLt x y = true) :
    itemSortLt y x = false :=
  lexPairLt_asymm _ _ h

theorem itemSortLt_trans (x y z : InvoiceItem) (h1 : itemSortLt x y = true)
    (h2 : itemSortLt y z = true) : itemSortLt x z = true :=
  lexPairLt_trans _ _ _ h1 h2

/-- The grouping dictionary of lines 524-529: group keys appear in first
occurrence order and each new line is appended to its customer group. -/
def addToGroup (gs : List (String × List InvoiceItem)) (it : InvoiceItem) :
    List (String × List InvoiceItem) :=
  match gs with
  | [] => [(it.customer, [it])]
  | (c, l) :: rest =>
    if c = it.customer then (c, l ++ [it]) :: rest else (c, l) :: addToGroup rest it

/-- `customer_invoices` of lines 524-529: partition the (sorted) items by
customer into an insertion-ordered dictionary of lists. -/
def groupByCustomer (l : List InvoiceItem) : List (String × List InvoiceItem) :=
  l.foldl addToGroup []

/-- Dictionary lookup over the grouping association list. -/
def lookupGroup (c : String) : List (String × List InvoiceItem) → Option (List InvoiceItem)
  | [] => none
  | (c', l) :: rest => if c' = c then some l else lookupGroup c rest

theorem lookupGroup_addToGroup (gs : List (String × List InvoiceItem))
    (it : InvoiceItem) (c : String) :
    lookupGroup c (addToGroup gs it)
      = if it.customer = c then some ((lookupGroup c gs).getD [] ++ [it])
        else lookupGroup c gs := by
  induction gs with
  | nil =>
    by_cases h : it.customer = c
    · simp [addToGroup, lookupGroup, h]
    · simp [addToGroup, lookupGroup, h]
  | cons p rest ih =>
    obtain ⟨k, l⟩ := p
    by_cases hk : k = it.customer
    · by_cases h : k = c
      · have hc2 : it.customer = c := hk ▸ h
        simp [addToGroup, lookupGroup, hk, h, hc2]
      · have hc2 : ¬ it.customer = c := by
          rw [← hk]
          exact h
        simp [addToGroup, lookupGroup, hk, h, hc2]
    · by_cases h : k = c
      · have hc2 : ¬ it.customer = c := by
          intro hcc
          exact hk (h.trans hcc.symm)
        simp [addToGroup, lookupGroup, hk, h, hc2, Ne.symm hc2]
      · simp [addToGroup, lookupGroup, hk, h, ih]

/-- Group keys after an insertion: unchanged when the customer already has
a group, extended at the end otherwise. -/
theorem keys_addToGroup (gs : List (String × List InvoiceItem)) (it : InvoiceItem) :
    (addToGroup gs it).map Prod.fst
      = if (lookupGroup it.customer gs).isSome then gs.map Prod.fst
        else gs.map Prod.fst ++ [it.customer] := by
  induction gs with
  | nil => simp [addToGroup, lookupGroup]
  | cons p rest ih =>
    obtain ⟨k, l⟩ := p
    by_cases hk : k = it.customer
    · simp [addToGroup, lookupGroup, hk]
    · by_cases hs : (lookupGroup it.customer rest).isSome = true
      · simp [addToGroup, lookupGroup, hk, ih, hs]
      · simp [addToGroup, lookupGroup, hk, ih, hs]

/-- A key is absent from the dictionary exactly when no group carries it. -/
theorem lookupGroup_eq_none_iff (c : String) :
    ∀ gs : List (String × List InvoiceItem),
      lookupGroup c gs = none ↔ c ∉ gs.map Prod.fst := by
  intro gs
  induction gs with
  | nil => simp [lookupGroup]
  | cons p rest ih =>
    obtain ⟨k, l⟩ := p
    by_cases h : k = c
    · subst h
      simp [lookupGroup]
    · simp [lookupGroup, h, ih, Ne.symm h]

theorem keys_nodup_foldl :
    ∀ (l : List InvoiceItem) (gs : List (String × List InvoiceItem)),
      (gs.map Prod.fst).Nodup → ((l.foldl addToGroup gs).map Prod.fst).Nodup := by
  intro l
  induction l with
  | nil => intro gs h; simpa using h
  | cons a t ih =>
    intro gs h
    refine ih (addToGroup gs a) ?_
    rw [keys_addToGroup]
    by_cases hs : (lookupGroup a.customer gs).isSome = true
    · simpa [hs] using h
    · have hnone : lookupGroup a.customer gs = none := by
        cases hl : lookupGroup a.customer gs with
        | none => rfl
        | some v => rw [hl] at hs; simp at hs
      have hnotmem : a.customer ∉ gs.map Prod.fst := (lookupGroup_eq_none_iff _ gs).mp hnone
      simp [hs, List.nodup_append, h, hnotmem]

theorem lookupGroup_foldl_filter :
    ∀ (l : List InvoiceItem) (gs : List (String × List InvoiceItem))
      (proc : List InvoiceItem),
      (∀ c, (lookupGroup c gs).getD [] = proc.filter (fun it => decide (it.customer = c))) →
      ∀ c, (lookupGroup c (l.foldl addToGroup gs)).getD []
        = (proc ++ l).filter (fun it => decide (it.customer = c)) := by
  intro l
  induction l with
  | nil => intro gs proc h c; simpa using h c
  | cons a t ih =>
    intro gs proc h c
    have hstep : ∀ c, (lookupGroup c (addToGroup gs a)).getD []
        = (proc ++ [a]).filter (fun it => decide (it.customer = c)) := by
      intro c
      rw [lookupGroup_addToGroup]
      by_cases hc : a.customer = c
      · simp [hc, h c, List.filter_append]
      · simp [hc, h c, List.filter_append]
    have hres := ih (addToGroup gs a) (proc ++ [a]) hstep c
    simpa using hres

theorem lookupGroup_eq_of_mem :
    ∀ (gs : List (String × List InvoiceItem)),
      (gs.map Prod.fst).Nodup → ∀ p ∈ gs, lookupGroup p.1 gs = some p.2 := by
  intro gs
  induction gs with
  | nil => intro _ p hp; cases hp
  | cons q rest ih =>
    intro hnd p hp
    obtain ⟨k, l⟩ := q
    rcases List.mem_cons.mp hp with hp | hp
    · rw [hp]
      simp [lookupGroup]
    · have hk : k ≠ p.1 := by
        intro hkp
        have hmem : p.1 ∈ rest.map Prod.fst := List.mem_map_of_mem Prod.fst hp
        rw [List.map_cons] at hnd
        rcases List.nodup_cons.mp hnd with ⟨hknot, _⟩
        exact hknot (hkp ▸ hmem)
      have hrest := ih (by
        rw [List.map_cons] at hnd
        exact (List.nodup_cons.mp hnd).2) p hp
      simpa [lookupGroup, hk] using hrest

/-- Every customer group of the dictionary is exactly the filter of the
grouped list to that customer, in list order. -/
theorem groupByCustomer_filter (l : List InvoiceItem) :
    ∀ p ∈ groupByCustomer l, p.2 = l.filter (fun it => decide (it.customer = p.1)) := by
  intro p hp
  have hinv := lookupGroup_foldl_filter l [] []
    (by intro c; simp [lookupGroup]) p.1
  have hnd : ((groupByCustomer l).map Prod.fst).Nodup :=
    keys_nodup_foldl l [] (by simp)
  have hlk : lookupGroup p.1 (groupByCustomer l) = some p.2 :=
    lookupGroup_eq_of_mem _ hnd p hp
  have hval : (lookupGroup p.1 (groupByCustomer l)).getD [] = p.2 := by
    rw [hlk]
    rfl
  rw [← hval]
  simpa [groupByCustomer] using hinv

/-- The three invoice line requests of the spec example
(`(address, service date)` pairs `("B St","2024-02-01")`,
`("A St","2024-01-01")`, `("A St","2024-03-01")`, one customer). -/
def c5ItemB : InvoiceItem :=
  ⟨"Acme", "2024-02-01", "2024-03-15", "Management Fees",
   "B St Management Fees February", none, none, "100", some "2024-02-01"⟩

/-- Second spec example line. -/
def c5ItemA1 : InvoiceItem :=
  ⟨"Acme", "2024-01-01", "2024-03-15", "Management Fees",
   "A St Management Fees January", none, none, "100", some "2024-01-01"⟩

/-- Third spec example line. -/
def c5ItemA2 : InvoiceItem :=
  ⟨"Acme", "2024-03-01", "2024-03-15", "Management Fees",
   "A St Management Fees March", none, none, "100", some "2024-03-01"⟩

/-- The spec example input order. -/
def c5ExampleItems : List InvoiceItem := [c5ItemB, c5ItemA1, c5ItemA2]

/-- C5: invoice assembly sorts the lines by the address token extracted
from the description, then by service date falling back to invoice date
(the sorted list is a permutation of the input, pairwise ordered under that
key), and then partitions the sorted list by customer name with the global
sort order preserved within each group (each group equals the filter of the
sorted list to its customer); the spec's example ordering holds. -/
theorem c5_invoice_sort_partition (items : List InvoiceItem) :
    (sortInvoiceItems items).Perm items
    ∧ (sortInvoiceItems items).Pairwise (fun x y => itemSortLt y x = false)
    ∧ (∀ p ∈ groupByCustomer (sortInvoiceItems items),
        p.2 = (sortInvoiceItems items).filter (fun it => decide (it.customer = p.1)))
    ∧ sortInvoiceItems c5ExampleItems = [c5ItemA1, c5ItemA2, c5ItemB] := by
  refine ⟨pySortByKey_perm itemSortLt items,
    pySortByKey_pairwise itemSortLt itemSortLt_asymm itemSortLt_trans items,
    groupByCustomer_filter (sortInvoiceItems items), ?_⟩
  decide

/-- C5 witness: in the spec example the single customer group is exactly
the sorted list. -/
theorem c5_invoice_sort_partition_witness :
    (("Acme", [c5ItemA1, c5ItemA2, c5ItemB]) : String × List InvoiceItem).2
      = (sortInvoiceItems c5ExampleItems).filter
          (fun it => decide (it.customer = ("Acme", [c5ItemA1, c5ItemA2, c5ItemB]).1)) :=
  (c5_invoice_sort_partition c5ExampleItems).2.2.1
    ("Acme", [c5ItemA1, c5ItemA2, c5ItemB]) (by decide)

/- ------------------------------------------------------------------------
`QuickBooksClient.create_invoice`, resolution and submission (lines
522-612), over an abstract backend.
------------------------------------------------------------------------ -/

/-- One row of the `Customer` entity as read by `get_customer_id`. -/
structure CustomerRec where
  displayName : String
  id : String
deriving DecidableEq

/-- `QuickBooksClient.get_customer_id` (lines 407-419): exact display-name
query, first match's id; `None` when nothing matches (the function also
maps its own exceptions to `None`). -/
def getCustomerId (customers : List CustomerRec) (customerName : String) : Option String :=
  match customers.filter (fun r => decide (r.displayName = customerName)) with
  | [] => none
  | r :: _ => some r.id

/-- One `SalesItemLineDetail` invoice line as assembled in lines 561-574. -/
structure SalesItemLine where
  amount : String
  description : String
  itemRefValue : String
  itemRefName : String
  qty : String
  unitPrice : String
  serviceDate : String
deriving DecidableEq

/-- The invoice document posted to the API (lines 577-592). -/
structure InvoiceData where
  line : List SalesItemLine
  customerRefValue : String
  customerRefName : String
  txnDate : String
  dueDate : String
  privateNote : String
  docNumber : String
  globalTaxCalculation : String
  currencyRefValue : String
  currencyRefName : String
deriving DecidableEq

/-- What the source keeps of a created invoice (lines 600-604): the
returned id, the derived QuickBooks URL, and the customer tag. -/
structure CreatedInvoice where
  id : String
  quickBooksUrl : String
  customer : String
deriving DecidableEq

/-- The backend `create_invoice` talks to: the customer table, the item
table, and the `POST invoice` call — `.error` a raised exception, `.ok
none` a response without an `'Invoice'` key, `.ok (some id)` a created
invoice with that id. -/
structure InvoiceBackend where
  customers : List CustomerRec
  items : List ItemRec
  submit : InvoiceData → Except String (Option String)

/-- Lines 540-574: build one invoice line.  A management-fee item uses
quantity 1 and the amount as unit price; otherwise the supplied quantity
and rate with their fallbacks.  Item-resolution errors propagate and an
unresolved item raises. -/
def buildInvoiceLine (db : List ItemRec) (it : InvoiceItem) : Except String SalesItemLine :=
  let mappedItemName := mapItemName it.item
  match getItemId db it.item with
  | .error e => .error e
  | .ok none =>
    .error ("Item " ++ apos ++ mappedItemName ++ apos ++ " (originally " ++ apos
      ++ it.item ++ apos ++ ") not found in QuickBooks")
  | .ok (some itemId) =>
    if containsSub "Management Fee".data mappedItemName.data then
      .ok ⟨it.amount, it.description, itemId, mappedItemName, "1", it.amount, sortDate it⟩
    else
      .ok ⟨it.amount, it.description, itemId, mappedItemName,
        it.quantity.getD "1", it.rate.getD it.amount, sortDate it⟩

/-- The per-group line loop (lines 539-574): the first failing line aborts
the group's invoice. -/
def buildInvoiceLines (db : List ItemRec) : List InvoiceItem → Except String (List SalesItemLine)
  | [] => .ok []
  | it :: rest =>
    match buildInvoiceLine db it with
    | .error e => .error e
    | .ok line =>
      match buildInvoiceLines db rest with
      | .error e => .error e
      | .ok lines => .ok (line :: lines)

/-- Lines 598-606 for one posted document: a raised request is the group's
error, a response without an `'Invoice'` key raises, and a created invoice
is enriched with its URL and customer tag; in all three cases exactly this
one submission was attempted. -/
def submitInvoice (B : InvoiceBackend) (customer : String) (data : InvoiceData) :
    Except String CreatedInvoice × List InvoiceData :=
  match B.submit data with
  | .error e => (.error e, [data])
  | .ok none => (.error "Invalid response from QuickBooks API", [data])
  | .ok (some invoiceId) =>
    (.ok { id := invoiceId
           quickBooksUrl := "https://qbo.intuit.com/app/invoice?txnId=" ++ invoiceId
           customer := customer }, [data])

/-- Lines 532-606 for one customer group: resolve the customer (raise when
absent), build the lines, post the document, and demand an `'Invoice'` key
in the response.  The second component lists the submissions attempted
(`_make_request("invoice", ...)` calls), which happen exactly when
resolution succeeded. -/
def processGroup (B : InvoiceBackend) (today nowStamp : String)
    (g : String × List InvoiceItem) :
    Except String CreatedInvoice × List InvoiceData :=
  match getCustomerId B.customers g.1 with
  | none => (.error ("Customer " ++ apos ++ g.1 ++ apos ++ " not found in QuickBooks"), [])
  | some customerId =>
    match buildInvoiceLines B.items g.2 with
    | .error e => (.error e, [])
    | .ok lines =>
      match g.2 with
      | [] => (.error "IndexError: list index out of range", [])
      | first :: _ =>
        let data : InvoiceData :=
          { line := lines
            customerRefValue := customerId
            customerRefName := g.1
            txnDate := today
            dueDate := first.dueDate
            privateNote := "Created via BuildingBlocks on " ++ today
              ++ " for service period " ++ first.invoiceDate
            docNumber := "BB-" ++ nowStamp
            globalTaxCalculation := "NotApplicable"
            currencyRefValue := "USD"
            currencyRefName := "United States Dollar" }
        submitInvoice B g.1 data

/-- The customer loop of lines 532-606: groups are processed in dictionary
order and the first raising group aborts the whole `try` block (its
exception is re-raised by line 612), leaving later groups unprocessed and
keeping the submissions already made. -/
def runGroups (B : InvoiceBackend) (today nowStamp : String) :
    List (String × List InvoiceItem) → Except String (List CreatedInvoice) × List InvoiceData
  | [] => (.ok [], [])
  | g :: rest =>
    match processGroup B today nowStamp g with
    | (.error e, subs) => (.error e, subs)
    | (.ok inv, subs) =>
      let tail := runGroups B today nowStamp rest
      (match tail.1 with
       | .error e => .error e
       | .ok invs => .ok (inv :: invs), subs ++ tail.2)

/-- The two result shapes of line 608: `results[0]` when exactly one
invoice was created, the list otherwise. -/
inductive CreateInvoiceResult where
  | single (inv : CreatedInvoice)
  | multiple (invs : List CreatedInvoice)
deriving DecidableEq

/-- `QuickBooksClient.create_invoice` (lines 485-612).  `today` stands for
`datetime.now().strftime('%Y-%m-%d')` and `nowStamp` for the
`'%Y%m%d-%H%M%S'` document-number stamp. -/
def createInvoice (B : InvoiceBackend) (today nowStamp : String)
    (items : List InvoiceItem) : Except String CreateInvoiceResult × List InvoiceData :=
  match items with
  | [] => (.error "No items provided for invoice creation", [])
  | _ :: _ =>
    let r := runGroups B today nowStamp (groupByCustomer (sortInvoiceItems items))
    (match r.1 with
     | .error e => .error e
     | .ok results =>
       match results with
       | [inv] => .ok (.single inv)
       | invs => .ok (.multiple invs), r.2)

/-- The C4 backend: customer "B Corp" exists, "A Corp" does not; the
management-fee item resolves; submission always succeeds. -/
def c4Backend : InvoiceBackend :=
  { customers := [⟨"B Corp", "77"⟩]
    items := [⟨"5", "Management Fee", "Service"⟩]
    submit := fun _ => .ok (some "I1") }

/-- A line for the unknown customer, sorting first by address. -/
def c4ItemA : InvoiceItem :=
  ⟨"A Corp", "2024-02-01", "2024-03-01", "Management Fees",
   "A St Management Fees", none, none, "100", some "2024-02-01"⟩

/-- A line for the known customer, sorting second by address. -/
def c4ItemB : InvoiceItem :=
  ⟨"B Corp", "2024-02-01", "2024-03-01", "Management Fees",
   "B St Management Fees", none, none, "100", some "2024-02-01"⟩

/-- C4, counterexample to the claim as stated: with two customer groups
where the first fails (customer not found), the whole invocation raises and
no submission at all is attempted — in particular the second customer,
although fully resolvable (its id and item both resolve), is never
attempted, so a failure for one customer does prevent subsequent customers
from being attempted. -/
theorem c4_counterexample :
    createInvoice c4Backend "2024-04-01" "20240401-120000" [c4ItemA, c4ItemB]
      = (.error ("Customer " ++ apos ++ "A Corp" ++ apos ++ " not found in QuickBooks"), [])
    ∧ getCustomerId c4Backend.customers "B Corp" = some "77"
    ∧ (∃ iid, getItemId c4Backend.items c4ItemB.item = .ok (some iid)) :=
  ⟨rfl, rfl, ⟨"5", rfl⟩⟩

theorem submitInvoice_subs (B : InvoiceBackend) (c : String) (data : InvoiceData) :
    (submitInvoice B c data).2 = [data] := by
  unfold submitInvoice
  cases B.submit data with
  | error e => rfl
  | ok o => cases o <;> rfl

theorem processGroup_subs_customer (B : InvoiceBackend) (today nowStamp : String)
    (g : String × List InvoiceItem) :
    ∀ d ∈ (processGroup B today nowStamp g).2, d.customerRefName = g.1 := by
  intro d hd
  unfold processGroup at hd
  repeat' split at hd
  all_goals simp_all [submitInvoice_subs]

/-- C4 (amended): a failure for one customer (customer not found, item
resolution failure, or submission failure) aborts the invocation — the
customer loop re-raises the group's error, the groups after the failing one
are never attempted (every attempted submission belongs to the failing
group or an earlier one), and the submissions already made for earlier
groups are kept, not rolled back. -/
theorem c4_failure_aborts_later_customers (B : InvoiceBackend) (today nowStamp : String)
    (gs1 : List (String × List InvoiceItem)) (g : String × List InvoiceItem)
    (gs2 : List (String × List InvoiceItem)) (e : String)
    (hok : ∀ g1 ∈ gs1, ∃ inv subs, processGroup B today nowStamp g1 = (.ok inv, subs))
    (hfail : (processGroup B today nowStamp g).1 = .error e) :
    runGroups B today nowStamp (gs1 ++ g :: gs2)
      = (.error e,
         (gs1.map (fun g1 => (processGroup B today nowStamp g1).2)).flatten
           ++ (processGroup B today nowStamp g).2)
    ∧ ∀ d ∈ (gs1.map (fun g1 => (processGroup B today nowStamp g1).2)).flatten
           ++ (processGroup B today nowStamp g).2,
        d.customerRefName ∈ gs1.map Prod.fst ++ [g.1] := by
  constructor
  · induction gs1 with
    | nil =>
      have hpg : processGroup B today nowStamp g
          = (.error e, (processGroup B today nowStamp g).2) := by
        rcases hp : processGroup B today nowStamp g with ⟨r, s⟩
        rw [hp] at hfail
        simp only at hfail
        rw [hfail]
      simp only [List.nil_append, List.map_nil, List.flatten]
      rw [runGroups, hpg]
    | cons g1 t ih =>
      rcases hok g1 (List.mem_cons_self g1 t) with ⟨inv, subs, hpg1⟩
      have hrest := ih (fun g' hg' => hok g' (List.mem_cons_of_mem g1 hg'))
      simp only [List.cons_append]
      rw [runGroups, hpg1, hrest]
      simp [hpg1]
  · intro d hd
    rcases List.mem_append.mp hd with hd | hd
    · rcases List.mem_flatten.mp hd with ⟨l, hl, hdl⟩
      rcases List.mem_map.mp hl with ⟨g1, hg1, rfl⟩
      have := processGroup_subs_customer B today nowStamp g1 d hdl
      exact List.mem_append_left _ (this ▸ List.mem_map_of_mem Prod.fst hg1)
    · have := processGroup_subs_customer B today nowStamp g d hd
      exact List.mem_append_right _ (by simp [this])

/-- C4 witness: in the two-customer counterexample run, the failing first
group aborts the loop with no submissions, all trivially belonging to the
failing-or-earlier groups. -/
theorem c4_failure_aborts_later_customers_witness :
    runGroups c4Backend "2024-04-01" "20240401-120000"
        ([] ++ ("A Corp", [c4ItemA]) :: [("B Corp", [c4ItemB])])
      = (.error ("Customer " ++ apos ++ "A Corp" ++ apos ++ " not found in QuickBooks"),
         (([] : List (String × List InvoiceItem)).map
             (fun g1 => (processGroup c4Backend "2024-04-01" "20240401-120000" g1).2)).flatten
           ++ (processGroup c4Backend "2024-04-01" "20240401-120000" ("A Corp", [c4ItemA])).2) :=
  (c4_failure_aborts_later_customers c4Backend "2024-04-01" "20240401-120000"
    [] ("A Corp", [c4ItemA]) [("B Corp", [c4ItemB])]
    ("Customer " ++ apos ++ "A Corp" ++ apos ++ " not found in QuickBooks")
    (by intro g1 h; cases h) rfl).1

theorem keys_mono_foldl :
    ∀ (l : List InvoiceItem) (gs : List (String × List InvoiceItem)) (c : String),
      c ∈ gs.map Prod.fst → c ∈ (l.foldl addToGroup gs).map Prod.fst := by
  intro l
  induction l with
  | nil => intro gs c h; simpa using h
  | cons a t ih =>
    intro gs c h
    refine ih (addToGroup gs a) c ?_
    rw [keys_addToGroup]
    split
    · exact h
    · exact List.mem_append_left _ h

theorem customer_mem_keys_foldl :
    ∀ (l : List InvoiceItem) (gs : List (String × List InvoiceItem)) (it : InvoiceItem),
      it ∈ l → it.customer ∈ (l.foldl addToGroup gs).map Prod.fst := by
  intro l
  induction l with
  | nil => intro gs it h; cases h
  | cons a t ih =>
    intro gs it h
    rcases List.mem_cons.mp h with h | h
    · subst h
      refine keys_mono_foldl t (addToGroup gs it) it.customer ?_
      rw [keys_addToGroup]
      by_cases hs : (lookupGroup it.customer gs).isSome = true
      · rw [if_pos hs]
        by_contra hnm
        rw [(lookupGroup_eq_none_iff _ gs).mpr hnm] at hs
        simp at hs
      · rw [if_neg hs]
        exact List.mem_append_right _ (List.mem_singleton_self _)
    · exact ih (addToGroup gs a) it h

theorem keys_foldl_subset :
    ∀ (l : List InvoiceItem) (gs : List (String × List InvoiceItem)) (c : String),
      c ∈ (l.foldl addToGroup gs).map Prod.fst →
      c ∈ gs.map Prod.fst ∨ ∃ it ∈ l, it.customer = c := by
  intro l
  induction l with
  | nil => intro gs c h; exact .inl (by simpa using h)
  | cons a t ih =>
    intro gs c h
    rcases ih (addToGroup gs a) c h with h | h
    · rw [keys_addToGroup] at h
      by_cases hs : (lookupGroup a.customer gs).isSome = true
      · rw [if_pos hs] at h
        exact .inl h
      · rw [if_neg hs] at h
        rcases List.mem_append.mp h with h | h
        · exact .inl h
        · exact .inr ⟨a, List.mem_cons_self a t, (List.mem_singleton.mp h).symm⟩
    · rcases h with ⟨it, hit, hc⟩
      exact .inr ⟨it, List.mem_cons_of_mem a hit, hc⟩

/-- With all lines naming one customer, the grouping has exactly one
group. -/
theorem groupByCustomer_length_one (l : List InvoiceItem) (hl : l ≠ [])
    (hsame : ∀ a ∈ l, ∀ b ∈ l, a.customer = b.customer) :
    (groupByCustomer l).length = 1 := by
  rcases List.exists_cons_of_ne_nil hl with ⟨a, t, rfl⟩
  have hmem : a.customer ∈ (groupByCustomer (a :: t)).map Prod.fst :=
    customer_mem_keys_foldl (a :: t) [] a (List.mem_cons_self a t)
  have hall : ∀ c ∈ (groupByCustomer (a :: t)).map Prod.fst, c = a.customer := by
    intro c hc
    rcases keys_foldl_subset (a :: t) [] c hc with h | ⟨it, hit, hcit⟩
    · simp at h
    · rw [← hcit]
      exact hsame it hit a (List.mem_cons_self a t)
  have hnd : ((groupByCustomer (a :: t)).map Prod.fst).Nodup :=
    keys_nodup_foldl (a :: t) [] (by simp)
  rw [← List.length_map (groupByCustomer (a :: t)) Prod.fst]
  cases hk : (groupByCustomer (a :: t)).map Prod.fst with
  | nil => rw [hk] at hmem; cases hmem
  | cons k1 krest =>
    cases krest with
    | nil => rfl
    | cons k2 krest2 =>
      exfalso
      rw [hk] at hall hnd
      have h1 : k1 = a.customer := hall k1 (List.mem_cons_self _ _)
      have h2 : k2 = a.customer :=
        hall k2 (List.mem_cons_of_mem _ (List.mem_cons_self _ _))
      rcases List.nodup_cons.mp hnd with ⟨hk1, _⟩
      exact hk1 (by rw [h1, ← h2]; exact List.mem_cons_self _ _)

/-- With two lines naming different customers, the grouping has at least
two groups. -/
theorem groupByCustomer_length_ge_two (l : List InvoiceItem)
    (a : InvoiceItem) (ha : a ∈ l) (b : InvoiceItem) (hb : b ∈ l)
    (hab : a.customer ≠ b.customer) :
    2 ≤ (groupByCustomer l).length := by
  have hma : a.customer ∈ (groupByCustomer l).map Prod.fst :=
    customer_mem_keys_foldl l [] a ha
  have hmb : b.customer ∈ (groupByCustomer l).map Prod.fst :=
    customer_mem_keys_foldl l [] b hb
  rw [← List.length_map (groupByCustomer l) Prod.fst]
  cases hk : (groupByCustomer l).map Prod.fst with
  | nil => rw [hk] at hma; cases hma
  | cons k1 krest =>
    cases krest with
    | nil =>
      exfalso
      rw [hk] at hma hmb
      have h1 : a.customer = k1 := by simpa using hma
      have h2 : b.customer = k1 := by simpa using hmb
      exact hab (h1.trans h2.symm)
    | cons k2 krest2 => simp

theorem buildInvoiceLines_ok (db : List ItemRec) :
    ∀ l : List InvoiceItem,
      (∀ it ∈ l, ∃ iid, getItemId db it.item = .ok (some iid)) →
      ∃ lines, buildInvoiceLines db l = .ok lines := by
  intro l
  induction l with
  | nil => intro _; exact ⟨[], rfl⟩
  | cons a t ih =>
    intro h
    rcases h a (List.mem_cons_self a t) with ⟨iid, hiid⟩
    rcases ih (fun it hit => h it (List.mem_cons_of_mem a hit)) with ⟨lines, hlines⟩
    have hline : ∃ line, buildInvoiceLine db a = .ok line := by
      by_cases hm : containsSub "Management Fee".data (mapItemName a.item).data = true
      · refine ⟨⟨a.amount, a.description, iid, mapItemName a.item, "1", a.amount, sortDate a⟩, ?_⟩
        simp [buildInvoiceLine, hiid, hm]
      · refine ⟨⟨a.amount, a.description, iid, mapItemName a.item,
          a.quantity.getD "1", a.rate.getD a.amount, sortDate a⟩, ?_⟩
        simp [buildInvoiceLine, hiid, hm]
    rcases hline with ⟨line, hline⟩
    refine ⟨line :: lines, ?_⟩
    simp only [buildInvoiceLines, hline, hlines]

theorem processGroup_ok (B : InvoiceBackend) (today nowStamp : String)
    (g : String × List InvoiceItem)
    (hg : g.2 ≠ [])
    (hc : (getCustomerId B.customers g.1).isSome = true)
    (hi : ∀ it ∈ g.2, ∃ iid, getItemId B.items it.item = .ok (some iid))
    (hs : ∀ d, ∃ iid, B.submit d = .ok (some iid)) :
    ∃ inv subs, processGroup B today nowStamp g = (.ok inv, subs) := by
  rcases Option.isSome_iff_exists.mp hc with ⟨cid, hcid⟩
  rcases buildInvoiceLines_ok B.items g.2 hi with ⟨lines, hlines⟩
  rcases List.exists_cons_of_ne_nil hg with ⟨first, grest, hg2⟩
  unfold processGroup
  rw [hcid, hlines, hg2]
  dsimp only
  rcases hs ⟨lines, cid, g.1, today, first.dueDate,
    "Created via BuildingBlocks on " ++ today ++ " for service period " ++ first.invoiceDate,
    "BB-" ++ nowStamp, "NotApplicable", "USD", "United States Dollar"⟩ with ⟨iid, hsub⟩
  unfold submitInvoice
  rw [hsub]
  exact ⟨_, _, rfl⟩

theorem runGroups_ok (B : InvoiceBackend) (today nowStamp : String) :
    ∀ gs : List (String × List InvoiceItem),
      (∀ g ∈ gs, ∃ inv subs, processGroup B today nowStamp g = (.ok inv, subs)) →
      ∃ invs subs, runGroups B today nowStamp gs = (.ok invs, subs)
        ∧ invs.length = gs.length := by
  intro gs
  induction gs with
  | nil => intro _; exact ⟨[], [], rfl, rfl⟩
  | cons g t ih =>
    intro h
    rcases h g (List.mem_cons_self g t) with ⟨inv, subs, hpg⟩
    rcases ih (fun g2 hg2 => h g2 (List.mem_cons_of_mem g hg2)) with
      ⟨invs, subs2, hrun, hlen⟩
    refine ⟨inv :: invs, subs ++ subs2, ?_, by simpa using hlen⟩
    rw [runGroups, hpg, hrun]

/-- C9: when resolution and submission succeed throughout, the result shape
of `create_invoice` depends on the number of distinct customers — a single
invoice object when all lines name one customer, a list when two lines name
different customers — and the empty input is rejected immediately with the
`ValueError`, before any resolution or submission, for every backend. -/
theorem c9_create_invoice_result_shape (B : InvoiceBackend) (today nowStamp : String)
    (items : List InvoiceItem) (hne : items ≠ [])
    (hcust : ∀ it ∈ items, (getCustomerId B.customers it.customer).isSome = true)
    (hitem : ∀ it ∈ items, ∃ iid, getItemId B.items it.item = .ok (some iid))
    (hsubmit : ∀ d, ∃ iid, B.submit d = .ok (some iid)) :
    ((∀ a ∈ items, ∀ b ∈ items, a.customer = b.customer) →
      ∃ inv subs, createInvoice B today nowStamp items = (.ok (.single inv), subs))
    ∧ ((∃ a ∈ items, ∃ b ∈ items, a.customer ≠ b.customer) →
      ∃ invs subs, createInvoice B today nowStamp items = (.ok (.multiple invs), subs)
        ∧ 2 ≤ invs.length)
    ∧ (∀ (B2 : InvoiceBackend) (t2 n2 : String),
        createInvoice B2 t2 n2 [] = (.error "No items provided for invoice creation", [])) := by
  rcases List.exists_cons_of_ne_nil hne with ⟨a0, t0, rfl⟩
  have hperm : (sortInvoiceItems (a0 :: t0)).Perm (a0 :: t0) :=
    pySortByKey_perm itemSortLt (a0 :: t0)
  have hsortne : sortInvoiceItems (a0 :: t0) ≠ [] := by
    intro hnil
    rw [hnil] at hperm
    exact List.cons_ne_nil a0 t0 hperm.symm.eq_nil
  have hgroups : ∀ g ∈ groupByCustomer (sortInvoiceItems (a0 :: t0)),
      ∃ inv subs, processGroup B today nowStamp g = (.ok inv, subs) := by
    intro g hg
    have hfil := groupByCustomer_filter (sortInvoiceItems (a0 :: t0)) g hg
    have hkey : g.1 ∈ (groupByCustomer (sortInvoiceItems (a0 :: t0))).map Prod.fst :=
      List.mem_map_of_mem Prod.fst hg
    have hex : ∃ it ∈ sortInvoiceItems (a0 :: t0), it.customer = g.1 := by
      rcases keys_foldl_subset (sortInvoiceItems (a0 :: t0)) [] g.1
          (by simpa [groupByCustomer] using hkey) with h | h
      · simp at h
      · exact h
    rcases hex with ⟨it0, hit0, hcust0⟩
    refine processGroup_ok B today nowStamp g ?_ ?_ ?_ hsubmit
    · rw [hfil]
      intro hnil
      have hmemf : it0 ∈ List.filter (fun it => decide (it.customer = g.1))
          (sortInvoiceItems (a0 :: t0)) := by
        rw [List.mem_filter]
        exact ⟨hit0, by simpa using hcust0⟩
      rw [hnil] at hmemf
      cases hmemf
    · rw [← hcust0]
      exact hcust it0 (hperm.mem_iff.mp hit0)
    · intro it hit
      rw [hfil] at hit
      exact hitem it (hperm.mem_iff.mp (List.mem_filter.mp hit).1)
  rcases runGroups_ok B today nowStamp (groupByCustomer (sortInvoiceItems (a0 :: t0)))
    hgroups with ⟨invs, subs, hrun, hlenrun⟩
  refine ⟨?_, ?_, ?_⟩
  · intro hsame
    have hsame2 : ∀ a ∈ sortInvoiceItems (a0 :: t0), ∀ b ∈ sortInvoiceItems (a0 :: t0),
        a.customer = b.customer := by
      intro a ha b hb
      exact hsame a (hperm.mem_iff.mp ha) b (hperm.mem_iff.mp hb)
    have hlen1 : (groupByCustomer (sortInvoiceItems (a0 :: t0))).length = 1 :=
      groupByCustomer_length_one _ hsortne hsame2
    rw [hlen1] at hlenrun
    rcases List.length_eq_one.mp hlenrun with ⟨inv, hinv⟩
    refine ⟨inv, subs, ?_⟩
    simp only [createInvoice]
    rw [hrun, hinv]
  · intro hdiff
    rcases hdiff with ⟨a, ha, b, hb, hab⟩
    have hlen2 : 2 ≤ (groupByCustomer (sortInvoiceItems (a0 :: t0))).length :=
      groupByCustomer_length_ge_two _ a (hperm.mem_iff.mpr ha) b (hperm.mem_iff.mpr hb) hab
    rw [← hlenrun] at hlen2
    cases invs with
    | nil => simp at hlen2
    | cons i1 r1 =>
      cases r1 with
      | nil => simp at hlen2
      | cons i2 r2 =>
        refine ⟨i1 :: i2 :: r2, subs, ?_, by simp⟩
        simp only [createInvoice]
        rw [hrun]
  · intro B2 t2 n2
    rfl

/-- The C9 witness backend: the single customer and the management-fee item
resolve, submission always succeeds. -/
def c9Backend : InvoiceBackend :=
  { customers := [⟨"Acme", "c1"⟩]
    items := [⟨"5", "Management Fee", "Service"⟩]
    submit := fun _ => .ok (some "I1") }

/-- C9 witness: the single-customer spec example yields a single invoice
object. -/
theorem c9_create_invoice_result_shape_witness :
    ∃ inv subs,
      createInvoice c9Backend "2024-04-01" "20240401-120000" c5ExampleItems
        = (.ok (.single inv), subs) :=
  (c9_create_invoice_result_shape c9Backend "2024-04-01" "20240401-120000" c5ExampleItems
    (by decide)
    (by decide)
    (by
      intro it hit
      exact ⟨"5", by fin_cases hit <;> rfl⟩)
    (fun d => ⟨"I1", rfl⟩)).1
    (by decide)

/- ------------------------------------------------------------------------
`QuickBooksClient._format_transaction` and `QuickBooksClient.get_transactions`
(`foundation/clients/quickbooks.py`, lines 200-392).
------------------------------------------------------------------------ -/

/-- A JSON scalar as fed to Python `float(...)` or stored raw: a number
(a decimal literal) or a string. -/
inductive JVal where
  | num (d : Dec)
  | str (s : String)
deriving DecidableEq

/-- Python `float(v)`: numbers pass through, strings are parsed as decimal
literals; the error is the raised `ValueError`. -/
def pyFloatE : JVal → Except String Dec
  | .num d => .ok d
  | .str s =>
    match parseDecimal s.data with
    | some q => .ok q
    | none => .error ("could not convert string to float: " ++ apos ++ s ++ apos)

/-- Python `a or b` on strings (empty is falsy). -/
def pyOrS (a b : String) : String := if a = "" then b else a

/-- A `{'value': ..., 'name': ...}` reference object. -/
structure RawRef where
  value : Option String := none
  name : Option String := none
deriving DecidableEq

/-- `r.get('name', d)` through a possibly missing reference object
(`txn.get('XRef', {}).get('name', d)`). -/
def refName (r : Option RawRef) (d : String) : String :=
  match r with
  | some ref => ref.name.getD d
  | none => d

/-- `r.get('value', d)` through a possibly missing reference object. -/
def refValue (r : Option RawRef) (d : String) : String :=
  match r with
  | some ref => ref.value.getD d
  | none => d

/-- One raw transaction line.  The three `accountBased/salesItem/journal`
fields each collapse `line.get('<Detail>', {}).get('AccountRef', {})` into
one optional reference (absent detail object and absent `AccountRef` both
read as the empty reference downstream). -/
structure RawLine where
  detailType : Option String := none
  accountBasedAccountRef : Option RawRef := none
  salesItemAccountRef : Option RawRef := none
  journalAccountRef : Option RawRef := none
  amount : Option JVal := none
  description : Option String := none
  lineNum : Option String := none
deriving DecidableEq

/-- A raw transaction payload with the keys `_format_transaction` reads.
`metaCreateTime` and `metaLastUpdatedTime` collapse the nested
`MetaData.get(...)` chain; `line` models the JSON `Line` array (the
source's single-object wrapping is the one-element list). -/
structure RawTxn where
  id : Option String := none
  txnDate : Option JVal := none
  totalAmt : Option JVal := none
  privateNote : Option String := none
  docNumber : Option String := none
  vendorRef : Option RawRef := none
  customerRef : Option RawRef := none
  paymentType : Option String := none
  syncToken : Option String := none
  metaCreateTime : Option String := none
  metaLastUpdatedTime : Option String := none
  line : Option (List RawLine) := none
  paymentMethodRef : Option RawRef := none
  credit : Option Bool := none
  currencyRef : Option RawRef := none
  dueDate : Option String := none
  balance : Option JVal := none
  status : Option String := none
  checkNum : Option String := none
  adjustment : Option Bool := none
deriving DecidableEq

/-- One normalized line item (lines 344-351). -/
structure FormattedLine where
  amount : Dec
  description : String
  accountId : String
  accountName : String
  detailType : String
  lineNum : String
deriving DecidableEq

/-- The normalized `meta_data` sub-dictionary. -/
structure TxnMetaData where
  createTime : String
  lastUpdatedTime : String
deriving DecidableEq

/-- The kind-specific extension fields of lines 364-385. -/
inductive TxnExtras where
  | purchase (paymentMethod : String) (credit : Bool) (currency : String)
  | bill (dueDate : String) (balance : Dec) (status : String)
  | expense (paymentMethod : String) (checkNumber : String)
  | journalEntry (adjustment : Bool)
  | noExtras
deriving DecidableEq

/-- The normalized transaction dictionary built by `_format_transaction`.
`date` keeps the raw `TxnDate` scalar, which the source stores as-is. -/
structure FormattedTxn where
  id : Option String
  type : String
  date : JVal
  amount : Dec
  memo : String
  entityName : String
  entityId : String
  paymentType : String
  docNumber : String
  privateNote : String
  syncToken : String
  metaData : TxnMetaData
  lineItems : List FormattedLine
  accountId : String
  accountName : String
  extras : TxnExtras
deriving DecidableEq

/-- Lines 333-352: one raw line.  Lines without a `DetailType` key are
skipped (`.ok none`); the account reference is selected by the detail-type
tag; a failing `float(line.get('Amount', 0))` raises. -/
def formatLine (line : RawLine) : Except String (Option FormattedLine) :=
  match line.detailType with
  | none => .ok none
  | some dt =>
    let accountRef : Option RawRef :=
      if dt = "AccountBasedExpenseLineDetail" then line.accountBasedAccountRef
      else if dt = "SalesItemLineDetail" then line.salesItemAccountRef
      else if dt = "JournalEntryLineDetail" then line.journalAccountRef
      else none
    match (match line.amount with | none => Except.ok (⟨0, 0⟩ : Dec) | some v => pyFloatE v) with
    | .error e => .error e
    | .ok amt =>
      .ok (some
        { amount := amt
          description := line.description.getD ""
          accountId := refValue accountRef ""
          accountName := refName accountRef ""
          detailType := dt
          lineNum := line.lineNum.getD "" })

/-- The line loop, in order; the first failing line raises. -/
def formatLines : List RawLine → Except String (List FormattedLine)
  | [] => .ok []
  | l :: rest =>
    match formatLine l with
    | .error e => .error e
    | .ok none => formatLines rest
    | .ok (some fl) =>
      match formatLines rest with
      | .error e => .error e
      | .ok fls => .ok (fl :: fls)

/-- `QuickBooksClient._format_transaction` (lines 307-392): the basic
fields with their `get` defaults, `float` conversions for total amount,
line amounts and (for bills) balance — absent values default to `0`, an
unparsable value raises, failing the record — the line items with their
per-kind account shapes, the first line's account as the transaction
account, and the kind-specific extras. -/
def formatTransaction (txn : RawTxn) (txnType : String) : Except String FormattedTxn :=
  match (match txn.totalAmt with | none => Except.ok (⟨0, 0⟩ : Dec) | some v => pyFloatE v) with
  | .error e => .error e
  | .ok amount =>
    match formatLines (txn.line.getD []) with
    | .error e => .error e
    | .ok lineItems =>
      match (if txnType = "Bill" then
              (match txn.balance with | none => Except.ok (⟨0, 0⟩ : Dec) | some v => pyFloatE v)
             else Except.ok ⟨0, 0⟩) with
      | .error e => .error e
      | .ok balanceVal =>
        .ok { id := txn.id
              type := txnType
              date := txn.txnDate.getD (.str "")
              amount := amount
              memo := pyOrS (txn.privateNote.getD "") (pyOrS (txn.docNumber.getD "") "")
              entityName := pyOrS (refName txn.vendorRef "") (refName txn.customerRef "")
              entityId := pyOrS (refValue txn.vendorRef "") (refValue txn.customerRef "")
              paymentType := txn.paymentType.getD ""
              docNumber := txn.docNumber.getD ""
              privateNote := txn.privateNote.getD ""
              syncToken := txn.syncToken.getD ""
              metaData := ⟨txn.metaCreateTime.getD "", txn.metaLastUpdatedTime.getD ""⟩
              lineItems := lineItems
              accountId := (lineItems.head?.map (fun fl => fl.accountId)).getD ""
              accountName := (lineItems.head?.map (fun fl => fl.accountName)).getD ""
              extras :=
                if txnType = "Purchase" then
                  .purchase (refName txn.paymentMethodRef "") (txn.credit.getD false)
                    (refName txn.currencyRef "USD")
                else if txnType = "Bill" then
                  .bill (txn.dueDate.getD "") balanceVal (txn.status.getD "")
                else if txnType = "Expense" then
                  .expense (refName txn.paymentMethodRef "") (txn.checkNum.getD "")
                else if txnType = "JournalEntry" then
                  .journalEntry (txn.adjustment.getD false)
                else .noExtras }

/-- The account filter of lines 248-259. -/
def reimbAccount : String := "6300 Reimbursable Expenses"

/-- The per-transaction loop of lines 243-264: formatted records accumulate
in order; records with a line item on the reimbursable-expenses account
also land in the filtered list; a record whose formatting raises is skipped
with its error recorded (the `logger.error` of line 262) and the loop
continues. -/
def processTxnList (txnType : String) :
    List RawTxn → List FormattedTxn × List FormattedTxn × List String
  | [] => ([], [], [])
  | txn :: rest =>
    let tail := processTxnList txnType rest
    match formatTransaction txn txnType with
    | .error e =>
      (tail.1, tail.2.1,
        ("Error formatting " ++ txnType ++ " transaction " ++ txn.id.getD "None" ++ ": " ++ e)
          :: tail.2.2)
    | .ok f =>
      if f.lineItems.any (fun li => li.accountName = reimbAccount) then
        (f :: tail.1, f :: tail.2.1, tail.2.2)
      else
        (f :: tail.1, tail.2.1, tail.2.2)

/-- The `'QueryResponse'` payload for one kind. -/
structure QueryResp where
  txns : Option (List RawTxn)
deriving DecidableEq

/-- The backend of `get_transactions`, indexed by transaction kind (the
date-range query construction is elided; no claim inspects the query
text).  `.error` models a raised query; `txns = none` a `QueryResponse`
without the kind's key. -/
structure TxnBackend where
  query : String → Except String QueryResp

/-- The four queried kinds (lines 215-220). -/
def transactionTypes : List String := ["Purchase", "Bill", "Expense", "JournalEntry"]

/-- The per-kind loop of lines 224-271: a raised query is logged and the
kind is skipped; a response without the kind's key is only a warning; a
present list runs the per-transaction loop. -/
def queryAllTypes (B : TxnBackend) :
    List String → List FormattedTxn × List FormattedTxn × List String
  | [] => ([], [], [])
  | ty :: rest =>
    let tail := queryAllTypes B rest
    match B.query ty with
    | .error e =>
      (tail.1, tail.2.1, ("Error querying " ++ ty ++ " transactions: " ++ e) :: tail.2.2)
    | .ok resp =>
      match resp.txns with
      | none => tail
      | some txns =>
        let r := processTxnList ty txns
        (r.1 ++ tail.1, r.2.1 ++ tail.2.1, r.2.2 ++ tail.2.2)

/-- String-date comparison for the sort key `x['date']`. -/
def txnDateStrLt (a b : FormattedTxn) : Bool :=
  match a.date, b.date with
  | .str sa, .str sb => charListLt sa.data sb.data
  | _, _ => false

/-- Numeric-date comparison for the sort key (cross-multiplied exact
comparison of the two decimals). -/
def txnDateNumLt (a b : FormattedTxn) : Bool :=
  match a.date, b.date with
  | .num da, .num db =>
    decide (da.mantissa * Int.ofNat (10 ^ db.exp) < db.mantissa * Int.ofNat (10 ^ da.exp))
  | _, _ => false

/-- `filtered_transactions.sort(key=lambda x: x['date'], reverse=True)`
(line 274).  A list of up to one element makes no comparisons; otherwise
all string keys or all numeric keys sort stably in descending order
(CPython implements `reverse=True` as reverse-sort-reverse), and mixed key
types raise `TypeError`. -/
def pySortByDateDesc (l : List FormattedTxn) : Except String (List FormattedTxn) :=
  match l with
  | [] => .ok []
  | [t] => .ok [t]
  | _ :: _ :: _ =>
    if l.all (fun t => match t.date with | .str _ => true | .num _ => false) then
      .ok ((pySortByKey txnDateStrLt l.reverse).reverse)
    else if l.all (fun t => match t.date with | .num _ => true | .str _ => false) then
      .ok ((pySortByKey txnDateNumLt l.reverse).reverse)
    else
      .error ("TypeError: " ++ apos ++ "<" ++ apos
        ++ " not supported between instances of " ++ apos ++ "str" ++ apos
        ++ " and " ++ apos ++ "int" ++ apos)

/-- The body of the `try` block of `get_transactions` (lines 211-284): run
the four kind loops, sort the filtered list by date descending (the one
operation in the body that can raise to the top level in this embedding),
and return all transactions when the filter matched nothing, the filtered
ones otherwise. -/
def getTransactionsBody (B : TxnBackend) : Except String (List FormattedTxn) :=
  let r := queryAllTypes B transactionTypes
  match pySortByDateDesc r.2.1 with
  | .error e => .error e
  | .ok sortedFiltered =>
    .ok (if sortedFiltered.length = 0 then r.1 else sortedFiltered)

/-- The hard-coded dummy transaction of lines 297-305.  The source dict
carries only the seven keys `id`, `type`, `date`, `amount`, `memo`,
`entity_name`, `account_name`; the remaining fields hold the values their
missing keys read as through `.get` defaults. -/
def dummyTransaction (today : String) : FormattedTxn :=
  { id := some "test123"
    type := "Purchase"
    date := .str today
    amount := ⟨100, 0⟩
    memo := "Test transaction"
    entityName := "Test Vendor"
    accountName := "6300 Reimbursable Expenses"
    entityId := ""
    paymentType := ""
    docNumber := ""
    privateNote := ""
    syncToken := ""
    metaData := ⟨"", ""⟩
    lineItems := []
    accountId := ""
    extras := .noExtras }

/-- `QuickBooksClient.get_transactions` (lines 200-305): the whole body is
wrapped in a `try` whose handler returns the one-element dummy list;
`today` stands for `datetime.now().strftime('%Y-%m-%d')`. -/
def getTransactions (B : TxnBackend) (today : String) : List FormattedTxn :=
  match getTransactionsBody B with
  | .ok r => r
  | .error _ => [dummyTransaction today]

/-- A raw purchase whose `TotalAmt` is the unparsable string "abc". -/
def c8BadTxn : RawTxn := { totalAmt := some (.str "abc") }

/-- C8, counterexample to the claim as stated: a present but unparsable
total amount does not default to `0` — it raises the `float` `ValueError`,
failing the whole record (no `.ok` result exists for it). -/
theorem c8_counterexample :
    formatTransaction c8BadTxn "Purchase"
      = .error ("could not convert string to float: " ++ apos ++ "abc" ++ apos)
    ∧ ∀ f, formatTransaction c8BadTxn "Purchase" ≠ .ok f := by
  have heq : formatTransaction c8BadTxn "Purchase"
      = .error ("could not convert string to float: " ++ apos ++ "abc" ++ apos) := rfl
  refine ⟨heq, ?_⟩
  intro f h
  rw [heq] at h
  exact Except.noConfusion h

/-- C8 (amended): numeric fields default to `0` when absent — the total
amount, a line amount, and a bill's balance each read `0` when their key is
missing — while an unparsable value fails that record; and the batch loop
skips a malformed record, records its error, and keeps every other record:
the accepted list and the recorded errors are exactly the filter-maps of
the per-record outcomes. -/
theorem c8_numeric_defaults_and_batch_isolation :
    (∀ (txn : RawTxn) (ty : String) (f : FormattedTxn),
      formatTransaction txn ty = .ok f → txn.totalAmt = none → f.amount = ⟨0, 0⟩)
    ∧ (∀ (txn : RawTxn) (f : FormattedTxn),
      formatTransaction txn "Bill" = .ok f → txn.balance = none →
        f.extras = .bill (txn.dueDate.getD "") ⟨0, 0⟩ (txn.status.getD ""))
    ∧ (∀ l : RawLine, l.amount = none →
        formatLine l = .ok none
        ∨ ∃ fl, formatLine l = .ok (some fl) ∧ fl.amount = ⟨0, 0⟩)
    ∧ (∀ (ty : String) (txns : List RawTxn),
        (processTxnList ty txns).1
          = txns.filterMap (fun t => (formatTransaction t ty).toOption)
        ∧ (processTxnList ty txns).2.2
          = txns.filterMap (fun t =>
              match formatTransaction t ty with
              | .error e => some ("Error formatting " ++ ty ++ " transaction "
                  ++ t.id.getD "None" ++ ": " ++ e)
              | .ok _ => none)) := by
  refine ⟨?_, ?_, ?_, ?_⟩
  · intro txn ty f hok hnone
    unfold formatTransaction at hok
    rw [hnone] at hok
    dsimp only at hok
    cases hfl : formatLines (txn.line.getD []) with
    | error e =>
      rw [hfl] at hok
      exact Except.noConfusion hok
    | ok fls =>
      rw [hfl] at hok
      dsimp only at hok
      cases hb : (if ty = "Bill" then
          (match txn.balance with | none => Except.ok (⟨0, 0⟩ : Dec) | some v => pyFloatE v)
        else Except.ok ⟨0, 0⟩) with
      | error e =>
        rw [hb] at hok
        exact Except.noConfusion hok
      | ok bv =>
        rw [hb] at hok
        dsimp only at hok
        injection hok with h
        rw [← h]
  · intro txn f hok hnone
    unfold formatTransaction at hok
    rw [if_pos (rfl : ("Bill" : String) = "Bill"), hnone] at hok
    dsimp only at hok
    cases hta : (match txn.totalAmt with
        | none => Except.ok (⟨0, 0⟩ : Dec) | some v => pyFloatE v) with
    | error e =>
      rw [hta] at hok
      exact Except.noConfusion hok
    | ok amount =>
      rw [hta] at hok
      dsimp only at hok
      cases hfl : formatLines (txn.line.getD []) with
      | error e =>
        rw [hfl] at hok
        exact Except.noConfusion hok
      | ok fls =>
        rw [hfl] at hok
        dsimp only at hok
        rw [if_neg (by decide : ¬ ("Bill" : String) = "Purchase"),
          if_pos (rfl : ("Bill" : String) = "Bill")] at hok
        injection hok with h
        rw [← h]
  · intro l hnone
    unfold formatLine
    cases hdt : l.detailType with
    | none => exact .inl rfl
    | some dt =>
      right
      rw [hnone]
      exact ⟨_, rfl, rfl⟩
  · intro ty txns
    induction txns with
    | nil => exact ⟨rfl, rfl⟩
    | cons t rest ih =>
      rcases ih with ⟨ih1, ih2⟩
      cases hft : formatTransaction t ty with
      | error e =>
        constructor
        · simp [processTxnList, hft, ih1, List.filterMap_cons, Except.toOption]
        · simp [processTxnList, hft, ih2, List.filterMap_cons]
      | ok f =>
        by_cases hfil : f.lineItems.any (fun li => li.accountName = reimbAccount) = true
        · constructor
          · simp [processTxnList, hft, hfil, ih1, List.filterMap_cons, Except.toOption]
          · simp [processTxnList, hft, hfil, ih2, List.filterMap_cons]
        · constructor
          · simp [processTxnList, hft, hfil, ih1, List.filterMap_cons, Except.toOption]
          · simp [processTxnList, hft, hfil, ih2, List.filterMap_cons]

/-- A raw transaction with no keys at all: every numeric field reads `0`. -/
def c8EmptyTxn : RawTxn := {}

/-- Its normalized form. -/
def c8EmptyFormatted : FormattedTxn :=
  { id := none
    type := "Purchase"
    date := .str ""
    amount := ⟨0, 0⟩
    memo := ""
    entityName := ""
    entityId := ""
    paymentType := ""
    docNumber := ""
    privateNote := ""
    syncToken := ""
    metaData := ⟨"", ""⟩
    lineItems := []
    accountId := ""
    accountName := ""
    extras := .purchase "" false "USD" }

/-- C8 witness: the keyless purchase normalizes with amount `0`. -/
theorem c8_numeric_defaults_and_batch_isolation_witness :
    c8EmptyFormatted.amount = ⟨0, 0⟩ :=
  c8_numeric_defaults_and_batch_isolation.1 c8EmptyTxn "Purchase" c8EmptyFormatted rfl rfl

/-- A backend producing exactly one real purchase that shares all the dummy
transaction's fields. -/
def c10RealBackend (today : String) : TxnBackend :=
  { query := fun ty =>
      if ty = "Purchase" then
        .ok ⟨some [{ id := some "test123"
                     txnDate := some (.str today)
                     totalAmt := some (.num ⟨100, 0⟩)
                     privateNote := some "Test transaction"
                     vendorRef := some ⟨none, some "Test Vendor"⟩
                     line := some [{ detailType := some "AccountBasedExpenseLineDetail"
                                     accountBasedAccountRef :=
                                       some ⟨some "41", some "6300 Reimbursable Expenses"⟩
                                     amount := some (.num ⟨100, 0⟩)
                                     description := some "Test" }] }]⟩
      else .ok ⟨none⟩ }

/-- The normalized form of that purchase. -/
def c10RealFormatted (today : String) : FormattedTxn :=
  { id := some "test123"
    type := "Purchase"
    date := .str today
    amount := ⟨100, 0⟩
    memo := "Test transaction"
    entityName := "Test Vendor"
    entityId := ""
    paymentType := ""
    docNumber := ""
    privateNote := "Test transaction"
    syncToken := ""
    metaData := ⟨"", ""⟩
    lineItems := [⟨⟨100, 0⟩, "Test", "41", "6300 Reimbursable Expenses",
      "AccountBasedExpenseLineDetail", ""⟩]
    accountId := "41"
    accountName := "6300 Reimbursable Expenses"
    extras := .purchase "" false "USD" }

/-- C10: whenever the body of `get_transactions` fails at the top level
(outside the per-kind and per-record handlers), the function does not raise
and does not return an empty result — it returns exactly the one-element
hard-coded dummy list (id "test123", amount 100.0, account "6300
Reimbursable Expenses"); and a genuine backend exists whose real (non-dummy)
result carries the very same values in every field the dummy defines, so
those fields cannot tell the fabricated result from real data. -/
theorem c10_top_level_failure_returns_dummy (B : TxnBackend) (today : String)
    (e : String) (hfail : getTransactionsBody B = .error e) :
    getTransactions B today = [dummyTransaction today]
    ∧ getTransactions B today ≠ []
    ∧ (dummyTransaction today).id = some "test123"
    ∧ (dummyTransaction today).amount = ⟨100, 0⟩
    ∧ (dummyTransaction today).accountName = "6300 Reimbursable Expenses"
    ∧ (∃ (B2 : TxnBackend) (t : FormattedTxn), getTransactionsBody B2 = .ok [t]
        ∧ t.id = (dummyTransaction today).id
        ∧ t.type = (dummyTransaction today).type
        ∧ t.date = (dummyTransaction today).date
        ∧ t.amount = (dummyTransaction today).amount
        ∧ t.memo = (dummyTransaction today).memo
        ∧ t.entityName = (dummyTransaction today).entityName
        ∧ t.accountName = (dummyTransaction today).accountName) := by
  have hmain : getTransactions B today = [dummyTransaction today] := by
    rw [getTransactions, hfail]
  refine ⟨hmain, ?_, rfl, rfl, rfl, ?_⟩
  · rw [hmain]
    exact List.cons_ne_nil _ _
  · exact ⟨c10RealBackend today, c10RealFormatted today, rfl, rfl, rfl, rfl, rfl, rfl, rfl, rfl⟩

/-- A backend whose filtered transactions carry mixed-type dates, so the
final sort raises `TypeError` at the top level of `get_transactions`. -/
def c10FailBackend : TxnBackend :=
  { query := fun ty =>
      if ty = "Purchase" then
        .ok ⟨some [{ id := some "p1"
                     txnDate := some (.str "2024-01-01")
                     totalAmt := some (.num ⟨10, 0⟩)
                     line := some [{ detailType := some "AccountBasedExpenseLineDetail"
                                     accountBasedAccountRef :=
                                       some ⟨some "41", some "6300 Reimbursable Expenses"⟩
                                     amount := some (.num ⟨10, 0⟩) }] },
                   { id := some "p2"
                     txnDate := some (.num ⟨5, 0⟩)
                     totalAmt := some (.num ⟨20, 0⟩)
                     line := some [{ detailType := some "AccountBasedExpenseLineDetail"
                                     accountBasedAccountRef :=
                                       some ⟨some "41", some "6300 Reimbursable Expenses"⟩
                                     amount := some (.num ⟨20, 0⟩) }] }]⟩
      else .ok ⟨none⟩ }

/-- C10 witness: the mixed-date backend fails the top-level sort and the
call returns the dummy list. -/
theorem c10_top_level_failure_returns_dummy_witness :
    getTransactions c10FailBackend "2024-04-01" = [dummyTransaction "2024-04-01"] :=
  (c10_top_level_failure_returns_dummy c10FailBackend "2024-04-01"
    ("TypeError: " ++ apos ++ "<" ++ apos
      ++ " not supported between instances of " ++ apos ++ "str" ++ apos
      ++ " and " ++ apos ++ "int" ++ apos) rfl).1

/- ------------------------------------------------------------------------
The currency-string shape of the rendered money cells (C6).
------------------------------------------------------------------------ -/

/-- The spec-side shape of a rendered currency value after the dollar sign:
digit groups of three separated by commas, the first group one to three
digits. -/
def checkGroups : List (List Char) → Bool
  | [] => false
  | g :: gs =>
    (decide (1 ≤ g.length) && decide (g.length ≤ 3) && charsAllDigits g)
      && gs.all (fun h => decide (h.length = 3) && charsAllDigits h)

/-- The spec-side currency-string shape: a dollar sign, comma-grouped
digits, a decimal point, and exactly two decimal digits. -/
def isCurrencyString (s : String) : Bool :=
  match s.data with
  | [] => false
  | c :: rest =>
    if c = '$' then
      match splitChar '.' rest with
      | [ip, fp] => checkGroups (splitChar ',' ip) && decide (fp.length = 2) && charsAllDigits fp
      | _ => false
    else false

theorem splitChar_not_mem (c : Char) (l : List Char) (h : c ∉ l) :
    splitChar c l = [l] := by
  induction l with
  | nil => rfl
  | cons a t ih =>
    have hac : ¬ a = c := fun same => h (same ▸ List.mem_cons_self a t)
    simp only [splitChar, if_neg hac]
    rw [ih (fun hc => h (List.mem_cons_of_mem a hc))]

theorem splitChar_append (c : Char) (l1 l2 : List Char) (h : c ∉ l1) :
    splitChar c (l1 ++ c :: l2) = l1 :: splitChar c l2 := by
  induction l1 with
  | nil => simp [splitChar]
  | cons a t ih =>
    have hac : ¬ a = c := fun same => h (same ▸ List.mem_cons_self a t)
    have hrec := ih (fun hc => h (List.mem_cons_of_mem a hc))
    simp only [List.cons_append, splitChar, if_neg hac, List.append_eq] at hrec ⊢
    rw [hrec]

theorem intercalateChar_cons2 (c : Char) (g g2 : List Char) (t2 : List (List Char)) :
    intercalateChar c (g :: g2 :: t2) = g ++ c :: intercalateChar c (g2 :: t2) := by
  simp [intercalateChar]

theorem splitChar_intercalate (c : Char) :
    ∀ gs : List (List Char), gs ≠ [] → (∀ g ∈ gs, c ∉ g) →
      splitChar c (intercalateChar c gs) = gs := by
  intro gs
  induction gs with
  | nil => intro h _; cases h rfl
  | cons g t ih =>
    intro _ hmem
    cases t with
    | nil =>
      simp only [intercalateChar]
      exact splitChar_not_mem c g (hmem g (List.mem_cons_self g []))
    | cons g2 t2 =>
      rw [intercalateChar_cons2]
      rw [splitChar_append c g _ (hmem g (List.mem_cons_self _ _))]
      rw [ih (by simp) (fun g3 hg3 => hmem g3 (List.mem_cons_of_mem g hg3))]

theorem mem_intercalateChar (c : Char) :
    ∀ (gs : List (List Char)) (x : Char), x ∈ intercalateChar c gs →
      x = c ∨ ∃ g ∈ gs, x ∈ g := by
  intro gs
  induction gs with
  | nil =>
    intro x hx
    simp [intercalateChar] at hx
  | cons g t ih =>
    intro x hx
    cases t with
    | nil =>
      simp only [intercalateChar] at hx
      exact .inr ⟨g, List.mem_cons_self g [], hx⟩
    | cons g2 t2 =>
      rw [intercalateChar_cons2] at hx
      rcases List.mem_append.mp hx with hx | hx
      · exact .inr ⟨g, List.mem_cons_self _ _, hx⟩
      · rcases List.mem_cons.mp hx with hx | hx
        · exact .inl hx
        · rcases ih x hx with h | ⟨g3, hg3, hx3⟩
          · exact .inl h
          · exact .inr ⟨g3, List.mem_cons_of_mem g hg3, hx3⟩

theorem digitChar_isDigit (d : Nat) : (digitChar d).isDigit = true := by
  unfold digitChar
  split <;> rfl

theorem natToDigitChars_ne_nil (n : Nat) : natToDigitChars n ≠ [] := by
  unfold natToDigitChars
  split
  · simp
  · rename_i hn
    cases n with
    | zero => exact absurd rfl hn
    | succ k => simp [natDigitsLE]

theorem natToDigitChars_digits (n : Nat) :
    ∀ x ∈ natToDigitChars n, x.isDigit = true := by
  unfold natToDigitChars
  split
  · intro x hx
    rw [List.mem_singleton.mp hx]
    rfl
  · intro x hx
    simp only [List.mem_reverse, List.mem_map] at hx
    rcases hx with ⟨d, _, rfl⟩
    exact digitChar_isDigit d

theorem chunk3_flatten (l : List Char) : (chunk3 l).flatten = l := by
  induction l using chunk3.induct with
  | case1 => rfl
  | case2 a => rfl
  | case3 a b => rfl
  | case4 a b c rest ih => simp [chunk3, ih]

theorem chunk3_bounds (l : List Char) :
    ∀ g ∈ chunk3 l, 1 ≤ g.length ∧ g.length ≤ 3 := by
  induction l using chunk3.induct with
  | case1 => intro g hg; cases hg
  | case2 a =>
    intro g hg
    rw [List.mem_singleton.mp hg]
    exact ⟨by simp, by simp⟩
  | case3 a b =>
    intro g hg
    rw [List.mem_singleton.mp hg]
    exact ⟨by simp, by simp⟩
  | case4 a b c rest ih =>
    intro g hg
    rcases List.mem_cons.mp hg with hg | hg
    · rw [hg]
      exact ⟨by simp, by simp⟩
    · exact ih g hg

theorem chunk3_dropLast (l : List Char) :
    ∀ g ∈ (chunk3 l).dropLast, g.length = 3 := by
  induction l using chunk3.induct with
  | case1 => intro g hg; simp [chunk3] at hg
  | case2 a => intro g hg; simp [chunk3] at hg
  | case3 a b => intro g hg; simp [chunk3] at hg
  | case4 a b c rest ih =>
    intro g hg
    rw [show chunk3 (a :: b :: c :: rest) = [a, b, c] :: chunk3 rest from rfl] at hg
    cases hcr : chunk3 rest with
    | nil =>
      rw [hcr] at hg
      simp at hg
    | cons q qs =>
      rw [hcr] at hg
      simp only [List.dropLast_cons₂, List.mem_cons] at hg
      rcases hg with hg | hg
      · rw [hg]
        rfl
      · refine ih g ?_
        rw [hcr]
        exact hg

theorem chunk3_ne_nil (l : List Char) (h : l ≠ []) : chunk3 l ≠ [] := by
  cases l with
  | nil => exact absurd rfl h
  | cons a t =>
    cases t with
    | nil => simp [chunk3]
    | cons b t2 =>
      cases t2 with
      | nil => simp [chunk3]
      | cons c t3 => simp [chunk3]

theorem mem_groupRight (l : List Char) (g : List Char) (hg : g ∈ groupRight l)
    (x : Char) (hx : x ∈ g) : x ∈ l := by
  unfold groupRight at hg
  rw [List.mem_reverse] at hg
  rcases List.mem_map.mp hg with ⟨g0, hg0, rfl⟩
  rw [List.mem_reverse] at hx
  have hflat : x ∈ (chunk3 l.reverse).flatten := List.mem_flatten.mpr ⟨g0, hg0, hx⟩
  rw [chunk3_flatten] at hflat
  exact List.mem_reverse.mp hflat

theorem checkGroups_groupRight (ds : List Char) (hne : ds ≠ [])
    (hdig : ∀ x ∈ ds, x.isDigit = true) :
    checkGroups (groupRight ds) = true := by
  have hrevne : ds.reverse ≠ [] := by simpa using hne
  have hdig2 : ∀ g ∈ chunk3 ds.reverse, ∀ x ∈ g, x.isDigit = true := by
    intro g hgmem x hx
    have hfl : x ∈ (chunk3 ds.reverse).flatten := List.mem_flatten.mpr ⟨g, hgmem, hx⟩
    rw [chunk3_flatten] at hfl
    exact hdig x (List.mem_reverse.mp hfl)
  rcases List.eq_nil_or_concat (chunk3 ds.reverse) with hnil | ⟨l2, b, hcat⟩
  · exact absurd hnil (chunk3_ne_nil _ hrevne)
  · rw [List.concat_eq_append] at hcat
    have hbmem : b ∈ chunk3 ds.reverse := by
      rw [hcat]
      exact List.mem_append_right _ (List.mem_singleton_self b)
    have hbound := chunk3_bounds ds.reverse b hbmem
    unfold groupRight
    rw [hcat, List.map_append, List.reverse_append]
    simp only [List.map_cons, List.map_nil, List.reverse_cons, List.reverse_nil,
      List.nil_append, List.singleton_append]
    simp only [checkGroups, Bool.and_eq_true, decide_eq_true_eq]
    refine ⟨⟨⟨by simpa using hbound.1, by simpa using hbound.2⟩, ?_⟩, ?_⟩
    · rw [charsAllDigits, List.all_eq_true]
      intro x hx
      exact hdig2 b hbmem x (List.mem_reverse.mp hx)
    · rw [List.all_eq_true]
      intro g hgm
      rw [List.mem_reverse] at hgm
      rcases List.mem_map.mp hgm with ⟨g0, hg0, rfl⟩
      have hg0drop : g0 ∈ (chunk3 ds.reverse).dropLast := by
        rw [hcat, List.dropLast_concat]
        exact hg0
      have hlen := chunk3_dropLast ds.reverse g0 hg0drop
      rw [Bool.and_eq_true, decide_eq_true_eq]
      constructor
      · simpa using hlen
      · rw [charsAllDigits, List.all_eq_true]
        intro x hx
        have hg0mem : g0 ∈ chunk3 ds.reverse := by
          rw [hcat]
          exact List.mem_append_left _ hg0
        exact hdig2 g0 hg0mem x (List.mem_reverse.mp hx)

theorem commaGrouped_not_dot (n : Nat) : '.' ∉ commaGrouped n := by
  intro hmem
  rcases mem_intercalateChar ',' _ '.' hmem with h | ⟨g, hg, hx⟩
  · exact absurd h (by decide)
  · have hmem2 := mem_groupRight _ g hg '.' hx
    have hd := natToDigitChars_digits n '.' hmem2
    exact absurd hd (by decide)

theorem comma_not_mem_groupRight (n : Nat) :
    ∀ g ∈ groupRight (natToDigitChars n), ',' ∉ g := by
  intro g hg hmem
  have hmem2 := mem_groupRight _ g hg ',' hmem
  have hd := natToDigitChars_digits n ',' hmem2
  exact absurd hd (by decide)

theorem pad2_not_dot (r : Nat) : '.' ∉ pad2 r := by
  intro h
  rcases List.mem_cons.mp h with h | h
  · have hd := digitChar_isDigit ((r / 10) % 10)
    rw [← h] at hd
    exact absurd hd (by decide)
  · have hd := digitChar_isDigit (r % 10)
    rw [← List.mem_singleton.mp h] at hd
    exact absurd hd (by decide)

theorem groupRight_ne_nil (l : List Char) (h : l ≠ []) : groupRight l ≠ [] := by
  unfold groupRight
  intro hcon
  rw [List.reverse_eq_nil_iff, List.map_eq_nil_iff] at hcon
  exact chunk3_ne_nil l.reverse (by simpa using h) hcon

theorem isCurrencyString_format (c : Int) (hc : 0 ≤ c) :
    isCurrencyString ⟨'$' :: formatCentsCommas c⟩ = true := by
  have hneg : ¬ c < 0 := not_lt.mpr hc
  unfold isCurrencyString formatCentsCommas
  rw [if_neg hneg]
  dsimp only
  rw [if_pos rfl, List.nil_append,
    splitChar_append '.' _ _ (commaGrouped_not_dot _),
    splitChar_not_mem '.' _ (pad2_not_dot _)]
  dsimp only
  simp only [commaGrouped]
  rw [splitChar_intercalate ','  _
    (groupRight_ne_nil _ (natToDigitChars_ne_nil _)) (comma_not_mem_groupRight _)]
  rw [checkGroups_groupRight _ (natToDigitChars_ne_nil _) (natToDigitChars_digits _)]
  simp [pad2, charsAllDigits, digitChar_isDigit]

theorem isCurrencyString_formatMoney (d : Dec) (hq0 : 0 ≤ d.mantissa)
    (hden : d.exp ≤ 2) :
    isCurrencyString (formatMoneyAmount d) = true := by
  unfold formatMoneyAmount decCents
  rw [if_pos hden]
  refine isCurrencyString_format _ ?_
  exact mul_nonneg hq0 (Int.natCast_nonneg _)

/-- The money-cell hypothesis of C6: the cleaned cell value parses to a
nonnegative amount with at most two decimal places (the shape of the money
values in a raw aging report). -/
def isMoneyCell (v : String) : Prop :=
  ∃ d : Dec, parseDecimal (cleanMoney v.data) = some d ∧ 0 ≤ d.mantissa ∧ d.exp ≤ 2

/-- Every data cell that is empty or a money value renders as a currency
string: dollar sign, thousands grouping, two decimals. -/
theorem renderMoneyCell_currency (v : String) (h : v = "" ∨ isMoneyCell v) :
    isCurrencyString (renderMoneyCell v) = true := by
  by_cases hve : v = ""
  · subst hve
    decide
  · rcases h with h | ⟨d, hp, hq0, hden⟩
    · exact absurd h hve
    · simp only [renderMoneyCell, if_neg hve, hp]
      exact isCurrencyString_formatMoney d hq0 hden

/-- A row that the first formatting loop keeps: present, non-empty
`ColData`, not a `Section`. -/
def isDataRow (r : ReportRow) : Bool :=
  match r.colData with
  | none => false
  | some cols => !cols.isEmpty && !(decide (r.type = some "Section"))

theorem formatDataRows_filter (rows : List ReportRow) :
    formatDataRows rows
      = (rows.filter isDataRow).map (fun r => renderDataRow (r.colData.getD [])) := by
  induction rows with
  | nil => rfl
  | cons r rest ih =>
    cases hcd : r.colData with
    | none =>
      have hdr : isDataRow r = false := by
        simp [isDataRow, hcd]
      simp [formatDataRows, hcd, List.filter_cons, hdr, ih]
    | some cols =>
      by_cases hskip : (cols.isEmpty || decide (r.type = some "Section")) = true
      · have h2 : cols.isEmpty = true ∨ r.type = some "Section" := by
          simpa using hskip
        have hdr : isDataRow r = false := by
          simp only [isDataRow, hcd]
          rcases h2 with h | h
          · simp [h]
          · simp [h]
        simp [formatDataRows, hcd, hskip, List.filter_cons, hdr, ih]
      · have h2 : ¬ cols.isEmpty = true ∧ ¬ r.type = some "Section" := by
          simpa [not_or] using hskip
        have hdr : isDataRow r = true := by
          simp [isDataRow, hcd, h2.1, h2.2]
        simp [formatDataRows, hcd, hskip, List.filter_cons, hdr, ih]

/-- The spec-example data row `["Acme", "", "$10.00"]`. -/
def c6DataRow : ReportRow :=
  ⟨none, none, some [⟨some "Acme"⟩, ⟨some ""⟩, ⟨some "$10.00"⟩], none⟩

/-- The spec-example grand-total section row. -/
def c6TotalRow : ReportRow :=
  ⟨some "Section", some "GrandTotal", none, some [⟨some "Total"⟩, ⟨some "$10.00"⟩]⟩

/-- The spec-example raw rows. -/
def c6ExampleRows : List ReportRow := [c6DataRow, c6TotalRow]

/-- C6: for every raw aging payload the formatter emits the header row and
then exactly one row per data row (rows with missing or empty `ColData` and
`Section` rows are skipped), with the grand-total row rendered last under
the `TOTAL` label; within a data row the first column passes through
unmodified and each further cell renders through the money pipeline —
every cell that is empty or a money value becomes a currency string
(dollar sign, thousands separators, two decimals), the empty cell becoming
exactly `$0.00`; and the spec's example row `["Acme", "", "$10.00"]`
renders to `["Acme", "$0.00", "$10.00"]` followed by the `TOTAL` row. -/
theorem c6_report_formatter (rows : List ReportRow) (gt : ReportRow)
    (hgt : findGrandTotal rows = some gt) :
    formatArReport (some ⟨some ⟨some rows⟩⟩)
      = (arReportHeaders
          :: (rows.filter isDataRow).map (fun r => renderDataRow (r.colData.getD [])))
        ++ [renderTotalRow gt]
    ∧ (∀ (c0 : ReportCol) (cells : List ReportCol),
        renderDataRow (c0 :: cells)
          = c0.value.getD "" :: cells.map (fun c => renderMoneyCell (c.value.getD "")))
    ∧ (∀ v : String, (v = "" ∨ isMoneyCell v) → isCurrencyString (renderMoneyCell v) = true)
    ∧ renderMoneyCell "" = "$0.00"
    ∧ formatArReport (some ⟨some ⟨some c6ExampleRows⟩⟩)
      = [arReportHeaders, ["Acme", "$0.00", "$10.00"], ["TOTAL", "$10.00"]] := by
  refine ⟨?_, ?_, renderMoneyCell_currency, by decide, by decide⟩
  · simp only [formatArReport, Option.getD_some, hgt]
    rw [formatDataRows_filter]
  · intro c0 cells
    rfl

/-- C6 witness: the structural shape instantiated on the example payload. -/
theorem c6_report_formatter_witness :
    formatArReport (some ⟨some ⟨some c6ExampleRows⟩⟩)
      = (arReportHeaders
          :: (c6ExampleRows.filter isDataRow).map (fun r => renderDataRow (r.colData.getD [])))
        ++ [renderTotalRow c6TotalRow] :=
  (c6_report_formatter c6ExampleRows c6TotalRow rfl).1
